import Mathlib

/-!
# Verification of the moicad CSG core (`src/wasm/src`)

Shallow embedding of the geometric kernel of the repository: the vector and
matrix kernel (`math.rs`), the mesh model (`geometry.rs`), the BSP tree and CSG
operations (`bsp.rs`), the public CSG layer (`csg.rs`) and the incremental
convex hull (`hull.rs`).

## Modelling conventions

* The source computes over `f32`.  The embedding computes over `ℚ` (exact
  arithmetic, the ideal semantics of the source's formulas).  `f32` rounding,
  infinities and NaN are not modelled; where the source stores the `f32`
  infinities `±∞` as bound sentinels the embedding uses an explicit extended
  type `QE`.
* Square roots are irrational, so `Vec3::length` (`sqrt` of the squared
  length) cannot be a `ℚ → ℚ` function.  Every *comparison* the source makes
  against a length or a normalised distance is embedded sqrt-free and exactly
  (`len < c ↔ lengthSq < c²` for `c ≥ 0`, `|n̂·w| > ε ↔ (n·w)² > ε²·|n|²`, …).
  Where the source divides a vector by its length to *store* it (plane and
  face normals), the embedding keeps a positive rational multiple of the
  normalised value and documents, at each use, why the claim at hand is
  invariant under that positive rescaling.
* Rust `&mut` mutation becomes explicit state passing; `Vec` becomes `List`;
  fallible constructors return `Option`.  Rust `v[i]` indexing (which panics
  out of range) is embedded as `List.getD · · default`; theorems that depend
  on indexed reads carry an in-range hypothesis so that the model and the
  source agree on the covered inputs.
-/

/- Batteries marks the `Rat` field operations `@[irreducible]`; the concrete
witnesses and counterexamples below evaluate the embedded pipelines on
explicit rational inputs by `decide`, which needs these to unfold. -/
attribute [local semireducible] Rat.add Rat.mul Rat.sub Rat.inv Rat.ofScientific

/-! ## `math.rs`: `Vec3` -/

/-- `Vec3` from `math.rs`: a 3D vector, embedded over `ℚ`. -/
structure Vec3 where
  x : ℚ
  y : ℚ
  z : ℚ
deriving DecidableEq, Repr

namespace Vec3

/-- `Vec3::new`. -/
def new (x y z : ℚ) : Vec3 := ⟨x, y, z⟩

/-- `Vec3::zero`. -/
def zero : Vec3 := ⟨0, 0, 0⟩

/-- `Vec3::add` (used throughout the source as `a.add(b)`). -/
def add (a b : Vec3) : Vec3 := ⟨a.x + b.x, a.y + b.y, a.z + b.z⟩

/-- `Vec3::subtract`. -/
def subtract (a b : Vec3) : Vec3 := ⟨a.x - b.x, a.y - b.y, a.z - b.z⟩

/-- `Vec3::scale`. -/
def scale (a : Vec3) (factor : ℚ) : Vec3 := ⟨a.x * factor, a.y * factor, a.z * factor⟩

/-- `Vec3::dot`. -/
def dot (a b : Vec3) : ℚ := a.x * b.x + a.y * b.y + a.z * b.z

/-- `Vec3::cross`. -/
def cross (a b : Vec3) : Vec3 :=
  ⟨a.y * b.z - a.z * b.y,
   a.z * b.x - a.x * b.z,
   a.x * b.y - a.y * b.x⟩

/-- The square of `Vec3::length` (`length` itself is `sqrt lengthSq`,
irrational in general, so the embedding works with the square). -/
def lengthSq (a : Vec3) : ℚ := a.x * a.x + a.y * a.y + a.z * a.z

/-- `Vec3::normalize`, embedded faithfully by passing the Euclidean length
`len = sqrt (lengthSq v)` as an explicit argument (constrained in the theorems
by `0 ≤ len` and `len * len = v.lengthSq`):

```
let len = self.length();
if len > 0.0 { self.scale(1.0 / len) } else { Vec3::zero() }
```
-/
def normalize (v : Vec3) (len : ℚ) : Vec3 :=
  if 0 < len then v.scale (1 / len) else Vec3.zero

/-- `Vec3::normalize` as used inside larger mesh pipelines, where no exact
rational length exists to pass explicitly.  The branch condition
`len > 0 ↔ lengthSq > 0` is exact; on the positive branch the source scales by
`1/len` while this model scales by `1/lengthSq = (1/len)·(1/len)`, i.e. the
result is the source's unit vector times the positive factor `1/len`.  Every
theorem below that touches a pipeline built on this function depends only on
vertex data, list lengths, zero-ness or sign tests, all invariant under that
positive factor; each use site records why. -/
def pseudoNormalize (v : Vec3) : Vec3 :=
  if 0 < v.lengthSq then v.scale (1 / v.lengthSq) else Vec3.zero

end Vec3

/-! ## `bsp.rs`: plane, point classification, polygon, split -/

/-- `EPSILON` from `bsp.rs` (`1e-4`), the classification tolerance the spec
calls `EPS_CLASSIFY`. -/
def EPSILON : ℚ := 1 / 10000

/-- `Plane` from `bsp.rs`: `normal` and offset `w`.

The source's `Plane::from_points` stores a *unit* normal.  The embedding
stores the unnormalised cross product (a positive multiple `λ·n̂` of the unit
normal, with `w` scaled by the same `λ`): dividing by the irrational length is
not expressible over `ℚ`.  `signed_distance`, classification and splitting are
therefore computed against a plane equation rescaled by `λ > 0`; the theorems
about splitting quantify over *arbitrary* rational normals, hence cover the
unit-normal planes of the source as a special case. -/
structure Plane where
  normal : Vec3
  w : ℚ
deriving DecidableEq, Repr

namespace Plane

/-- `Plane::from_points` (degeneracy test `len < EPSILON` embedded sqrt-free
as `lengthSq < EPSILON²`; the normalisation `normal.scale(1.0/len)` is kept as
the positive multiple discussed at `Plane`). -/
def fromPoints (a b c : Vec3) : Option Plane :=
  let ab := b.subtract a
  let ac := c.subtract a
  let normal := ab.cross ac
  if normal.lengthSq < EPSILON * EPSILON then
    none
  else
    some { normal := normal, w := normal.dot a }

/-- `Plane::flip`. -/
def flip (p : Plane) : Plane := { normal := p.normal.scale (-1), w := -p.w }

/-- `Plane::signed_distance`. -/
def signedDistance (p : Plane) (point : Vec3) : ℚ := p.normal.dot point - p.w

end Plane

/-- `PointClass` from `bsp.rs`. -/
inductive PointClass where
  | Coplanar
  | Front
  | Back
deriving DecidableEq, Repr

/-- `Plane::classify_point`. -/
def Plane.classifyPoint (p : Plane) (point : Vec3) : PointClass :=
  let dist := p.signedDistance point
  if dist < -EPSILON then .Back
  else if EPSILON < dist then .Front
  else .Coplanar

/-- `Polygon` from `bsp.rs`: a vertex ring with its cached plane. -/
structure Polygon where
  vertices : List Vec3
  plane : Plane
deriving DecidableEq, Repr

namespace Polygon

/-- `Polygon::new`. -/
def new (vertices : List Vec3) : Option Polygon :=
  if vertices.length < 3 then none
  else
    match Plane.fromPoints (vertices.getD 0 Vec3.zero) (vertices.getD 1 Vec3.zero)
        (vertices.getD 2 Vec3.zero) with
    | none => none
    | some plane => some { vertices := vertices, plane := plane }

/-- `Polygon::flip`. -/
def flip (p : Polygon) : Polygon :=
  { vertices := p.vertices.reverse, plane := p.plane.flip }

end Polygon

/-- `SplitResult` from `bsp.rs`. -/
inductive SplitResult where
  | Front (p : Polygon)
  | Back (p : Polygon)
  | CoplanarFront (p : Polygon)
  | CoplanarBack (p : Polygon)
  | Split (f : Option Polygon) (b : Option Polygon)
deriving DecidableEq, Repr

/-- The intersection point the split loop of `Polygon::split_by_plane` inserts
for a spanning edge `(vi, vj)`:

```
let diff = vj.subtract(vi);
let denom = plane.normal.dot(diff);
if denom.abs() > EPSILON * 0.1 {
    let t = (plane.w - plane.normal.dot(vi)) / denom;
    let t = t.clamp(0.0, 1.0);
    vi.add(diff.scale(t))
} else {
    vi.add(diff.scale(0.5))   // midpoint fallback
}
```
-/
def crossPoint (plane : Plane) (vi vj : Vec3) : Vec3 :=
  let diff := vj.subtract vi
  let denom := plane.normal.dot diff
  if EPSILON * (1 / 10) < |denom| then
    let t := (plane.w - plane.normal.dot vi) / denom
    let t := max 0 (min t 1)
    vi.add (diff.scale t)
  else
    vi.add (diff.scale (1 / 2))

/-- Did the split loop's interpolation condition
`(ti == Front && tj == Back) || (ti == Back && tj == Front)` hold? -/
def isSpanEdge (ti tj : PointClass) : Bool :=
  (ti = PointClass.Front && tj = PointClass.Back) ||
  (ti = PointClass.Back && tj = PointClass.Front)

/-- Contribution of one loop iteration of `Polygon::split_by_plane` to
`front_verts`: the `match ti` push followed by the spanning-edge insertion. -/
def stepFront (plane : Plane) (p q : Vec3 × PointClass) : List Vec3 :=
  (match p.2 with
   | .Coplanar => [p.1]
   | .Front => [p.1]
   | .Back => []) ++
  (if isSpanEdge p.2 q.2 then [crossPoint plane p.1 q.1] else [])

/-- Contribution of one loop iteration of `Polygon::split_by_plane` to
`back_verts`. -/
def stepBack (plane : Plane) (p q : Vec3 × PointClass) : List Vec3 :=
  (match p.2 with
   | .Coplanar => [p.1]
   | .Front => []
   | .Back => [p.1]) ++
  (if isSpanEdge p.2 q.2 then [crossPoint plane p.1 q.1] else [])

/-- The cyclically adjacent pairs `((v_i, t_i), (v_{i+1 mod n}, t_{i+1 mod n}))`
the split loop visits (`for i in 0..n { let j = (i + 1) % n; … }`). -/
def cycPairs (l : List (Vec3 × PointClass)) : List ((Vec3 × PointClass) × (Vec3 × PointClass)) :=
  l.zip (l.rotate 1)

/-- `front_verts` accumulated by the split loop of `Polygon::split_by_plane`. -/
def frontRim (poly : Polygon) (plane : Plane) : List Vec3 :=
  (cycPairs (poly.vertices.zip (poly.vertices.map plane.classifyPoint))).flatMap
    (fun pq => stepFront plane pq.1 pq.2)

/-- `back_verts` accumulated by the split loop of `Polygon::split_by_plane`. -/
def backRim (poly : Polygon) (plane : Plane) : List Vec3 :=
  (cycPairs (poly.vertices.zip (poly.vertices.map plane.classifyPoint))).flatMap
    (fun pq => stepBack plane pq.1 pq.2)

/-- `Polygon::split_by_plane`. -/
def Polygon.splitByPlane (poly : Polygon) (plane : Plane) : SplitResult :=
  let classes := poly.vertices.map plane.classifyPoint
  let hasFront := classes.any (fun c => c = PointClass.Front)
  let hasBack := classes.any (fun c => c = PointClass.Back)
  if !hasFront && !hasBack then
    if 0 < poly.plane.normal.dot plane.normal then .CoplanarFront poly
    else .CoplanarBack poly
  else if !hasFront then .Back poly
  else if !hasBack then .Front poly
  else
    let frontVerts := frontRim poly plane
    let backVerts := backRim poly plane
    .Split (if 3 ≤ frontVerts.length then Polygon.new frontVerts else none)
      (if 3 ≤ backVerts.length then Polygon.new backVerts else none)

/-! ## `bsp.rs`: BSP tree -/

/-- `BSPNode` from `bsp.rs`.  The Rust node holds
`plane : Option<Plane>`, `front back : Option<Box<BSPNode>>` and
`polygons : Vec<Polygon>`; the embedding flattens the child `Option<Box<·>>`
into an extra constructor `nil` (an *absent* child).  A present node whose
`plane` is `none` (possible at the depth cap) stays distinguishable from an
absent child, exactly as in the source. -/
inductive BSPNode where
  | nil
  | mk (plane : Option Plane) (front back : BSPNode) (polygons : List Polygon)
deriving DecidableEq, Repr

namespace BSPNode

/-- `MAX_BSP_DEPTH` from `bsp.rs`. -/
def MAX_BSP_DEPTH : Nat := 100

/-- `BSPNode::choose_splitting_plane`.  The source panics on an empty list
(never reached: `build_with_depth` only calls it on non-empty input); the
embedding returns the degenerate plane `⟨0,0⟩` there instead. -/
def chooseSplittingPlane (polygons : List Polygon) : Plane :=
  let score := fun (candidate : Plane) =>
    let counts := polygons.foldl
      (fun (acc : Int × Int × Int) poly =>
        let hasFront := poly.vertices.any (fun v => EPSILON < candidate.signedDistance v)
        let hasBack := poly.vertices.any (fun v => candidate.signedDistance v < -EPSILON)
        if hasFront && hasBack then (acc.1, acc.2.1, acc.2.2 + 1)
        else if hasFront then (acc.1 + 1, acc.2.1, acc.2.2)
        else (acc.1, acc.2.1 + 1, acc.2.2))
      (0, 0, 0)
    (counts.1 - counts.2.1).natAbs + counts.2.2.natAbs * 8
  let best := polygons.foldl
    (fun (acc : Option (Nat × Plane)) poly =>
      let s := score poly.plane
      match acc with
      | none => some (s, poly.plane)
      | some (bs, bp) => if s < bs then some (s, poly.plane) else some (bs, bp))
    none
  match best with
  | some (_, p) => p
  | none => { normal := Vec3.zero, w := 0 }

/-- `BSPNode::build_with_depth`, as the pure construction of the subtree a
fresh node becomes.  `fuel = MAX_BSP_DEPTH - depth`; the source's
`depth >= MAX_BSP_DEPTH` branch (store the polygons, no plane, no children)
is the `fuel = 0` case.  `build` is only invoked on fresh nodes
(`plane = None`, no children), so the `self.plane.is_none()` guard of the
source is always taken. -/
def buildWithFuel : Nat → List Polygon → BSPNode
  | 0, polygons => .mk none .nil .nil polygons
  | fuel + 1, polygons =>
    let plane := chooseSplittingPlane polygons
    let step := polygons.foldl
      (fun (acc : List Polygon × List Polygon × List Polygon) poly =>
        match poly.splitByPlane plane with
        | .CoplanarFront p => (acc.1 ++ [p], acc.2.1, acc.2.2)
        | .CoplanarBack p => (acc.1 ++ [p], acc.2.1, acc.2.2)
        | .Front p => (acc.1, acc.2.1 ++ [p], acc.2.2)
        | .Back p => (acc.1, acc.2.1, acc.2.2 ++ [p])
        | .Split f b =>
          (acc.1,
           acc.2.1 ++ (match f with | some fp => [fp] | none => []),
           acc.2.2 ++ (match b with | some bp => [bp] | none => [])))
      ([], [], [])
    let front := if step.2.1.isEmpty then BSPNode.nil else buildWithFuel fuel step.2.1
    let back := if step.2.2.isEmpty then BSPNode.nil else buildWithFuel fuel step.2.2
    .mk (some plane) front back step.1

/-- `BSPNode::new` / `BSPNode::from_polygons`. -/
def fromPolygons (polygons : List Polygon) : Option BSPNode :=
  if polygons.isEmpty then none
  else some (buildWithFuel MAX_BSP_DEPTH polygons)

/-- `BSPNode::invert`: flip the polygons, flip the plane, swap the children,
recurse. -/
def invert : BSPNode → BSPNode
  | .nil => .nil
  | .mk plane front back polygons =>
    .mk (plane.map Plane.flip) back.invert front.invert (polygons.map Polygon.flip)

/-- `BSPNode::clip_polygons`.  The `nil` case is never reached by the source
(clipping is always invoked on a present node); absent *children* are handled
inside the `mk` case: keep front-side fragments when there is no front child,
discard back-side fragments when there is no back child. -/
def clipPolygons : BSPNode → List Polygon → List Polygon
  | .nil, polygons => polygons
  | .mk plane front back _, polygons =>
    match plane with
    | none => polygons
    | some plane =>
      let step := polygons.foldl
        (fun (acc : List Polygon × List Polygon) poly =>
          match poly.splitByPlane plane with
          | .Front p => (acc.1 ++ [p], acc.2)
          | .CoplanarFront p => (acc.1 ++ [p], acc.2)
          | .Back p => (acc.1, acc.2 ++ [p])
          | .CoplanarBack p => (acc.1, acc.2 ++ [p])
          | .Split f b =>
            (acc.1 ++ (match f with | some fp => [fp] | none => []),
             acc.2 ++ (match b with | some bp => [bp] | none => [])))
        ([], [])
      let result := match front with
        | .nil => step.1
        | node => node.clipPolygons step.1
      let backResult := match back with
        | .nil => []
        | node => node.clipPolygons step.2
      result ++ backResult

/-- `BSPNode::clip_to`. -/
def clipTo : BSPNode → BSPNode → BSPNode
  | .nil, _ => .nil
  | .mk plane front back polygons, bsp =>
    .mk plane (front.clipTo bsp) (back.clipTo bsp) (bsp.clipPolygons polygons)

/-- `BSPNode::all_polygons`. -/
def allPolygons : BSPNode → List Polygon
  | .nil => []
  | .mk _ front back polygons => polygons ++ front.allPolygons ++ back.allPolygons

/-- `BSPNode::add_polygons`: extend the root node's polygon list. -/
def addPolygons : BSPNode → List Polygon → BSPNode
  | .nil, _ => .nil
  | .mk plane front back polygons, new =>
    if new.isEmpty then .mk plane front back polygons
    else .mk plane front back (polygons ++ new)

end BSPNode

/-! ## `geometry.rs`: bounds and mesh -/

/-- A single `f32` bound coordinate: the source initialises `Bounds` with
`f32::INFINITY` / `f32::NEG_INFINITY`, so the embedded scalar is `ℚ` extended
with the two infinities. -/
inductive QE where
  | top
  | bot
  | val (q : ℚ)
deriving DecidableEq, Repr

namespace QE

/-- `f32::min` on bound coordinates. -/
def min : QE → QE → QE
  | .top, b => b
  | .bot, _ => .bot
  | .val a, .top => .val a
  | .val _, .bot => .bot
  | .val a, .val b => .val (Min.min a b)

/-- `f32::max` on bound coordinates. -/
def max : QE → QE → QE
  | .bot, b => b
  | .top, _ => .top
  | .val a, .bot => .val a
  | .val _, .top => .top
  | .val a, .val b => .val (Max.max a b)

/-- `<=` on bound coordinates. -/
def le : QE → QE → Bool
  | .bot, _ => true
  | _, .top => true
  | .top, _ => false
  | _, .bot => false
  | .val a, .val b => decide (a ≤ b)

end QE

/-- `Bounds` from `geometry.rs` (`min: [f32; 3]`, `max: [f32; 3]`). -/
structure Bounds where
  min : QE × QE × QE
  max : QE × QE × QE
deriving DecidableEq, Repr

namespace Bounds

/-- `Bounds::new`. -/
def new : Bounds := ⟨(.top, .top, .top), (.bot, .bot, .bot)⟩

/-- `Bounds::add_point`. -/
def addPoint (b : Bounds) (p : Vec3) : Bounds :=
  ⟨(b.min.1.min (.val p.x), b.min.2.1.min (.val p.y), b.min.2.2.min (.val p.z)),
   (b.max.1.max (.val p.x), b.max.2.1.max (.val p.y), b.max.2.2.max (.val p.z))⟩

end Bounds

/-- `Mesh` from `geometry.rs`. -/
structure Mesh where
  vertices : List Vec3
  indices : List Nat
  normals : List Vec3
  bounds : Bounds
deriving DecidableEq, Repr

/-- The index triples `(i, i+1, i+2)` visited by the source loops
`for i in (0..indices.len()).step_by(3) { if i + 2 < indices.len() { … } }`:
complete chunks of three only. -/
def tripleChunks : List Nat → List (Nat × Nat × Nat)
  | i0 :: i1 :: i2 :: rest => (i0, i1, i2) :: tripleChunks rest
  | _ => []

namespace Mesh

/-- One iteration of the accumulation loop of `Mesh::calculate_normals`:
compute the face normal of triangle `t` and add it to the three incident
vertex normals. -/
def normalsStep (vertices : List Vec3) (normals : List Vec3) (t : Nat × Nat × Nat) :
    List Vec3 :=
  let v0 := vertices.getD t.1 Vec3.zero
  let v1 := vertices.getD t.2.1 Vec3.zero
  let v2 := vertices.getD t.2.2 Vec3.zero
  let faceNormal := ((v1.subtract v0).cross (v2.subtract v0)).pseudoNormalize
  let normals := normals.set t.1 ((normals.getD t.1 Vec3.zero).add faceNormal)
  let normals := normals.set t.2.1 ((normals.getD t.2.1 Vec3.zero).add faceNormal)
  normals.set t.2.2 ((normals.getD t.2.2 Vec3.zero).add faceNormal)

/-- `Mesh::calculate_normals` (smoothed normals: accumulate each face normal
at its three vertices, then normalise).  Vertex reads `self.vertices[i]` are
embedded as `getD` (the source panics out of range); both normalisations go
through `Vec3.pseudoNormalize` — no theorem below depends on the stored
normal *values*, only on how many normals there are. -/
def calculateNormals (vertices : List Vec3) (indices : List Nat) : List Vec3 :=
  ((tripleChunks indices).foldl (normalsStep vertices)
    (List.replicate vertices.length Vec3.zero)).map Vec3.pseudoNormalize

/-- `Mesh::new`: fold the vertices into fresh bounds, store vertices and
indices unchanged, compute smoothed normals. -/
def new (vertices : List Vec3) (indices : List Nat) : Mesh :=
  { vertices := vertices
    indices := indices
    normals := calculateNormals vertices indices
    bounds := vertices.foldl Bounds.addPoint Bounds.new }

/-- `Mesh::face_count`. -/
def faceCount (m : Mesh) : Nat := m.indices.length / 3

end Mesh

/-! ## `bsp.rs`: `mod operations` (mesh/polygon conversion, booleans) -/

namespace operations

/-- `operations::mesh_to_polygons`.  Vertex reads `mesh.vertices[idx]` are
`getD`-embedded (see the module conventions). -/
def meshToPolygons (mesh : Mesh) : List Polygon :=
  (tripleChunks mesh.indices).foldl
    (fun polygons t =>
      let v0 := mesh.vertices.getD t.1 Vec3.zero
      let v1 := mesh.vertices.getD t.2.1 Vec3.zero
      let v2 := mesh.vertices.getD t.2.2 Vec3.zero
      match Polygon.new [v0, v1, v2] with
      | some poly => polygons ++ [poly]
      | none => polygons)
    []

/-- `THIN_EPSILON` from `operations::polygons_to_mesh` (`1e-6`). -/
def THIN_EPSILON : ℚ := 1 / 1000000

/-- The winding test of `operations::polygons_to_mesh`:

```
let triangle_normal = v1.subtract(v0).cross(v2.subtract(v0));
let normal_len = triangle_normal.length();
if normal_len > THIN_EPSILON {
    triangle_normal.scale(1.0/normal_len).dot(poly.plane.normal) > 0.0
} else { true }
```

embedded sqrt-free: `normal_len > ε ↔ lengthSq > ε²` and, the scaling factor
`1/normal_len` being positive, `n̂·m > 0 ↔ n·m > 0`. -/
def sameDirection (poly : Polygon) : Bool :=
  let v0 := poly.vertices.getD 0 Vec3.zero
  let v1 := poly.vertices.getD 1 Vec3.zero
  let v2 := poly.vertices.getD 2 Vec3.zero
  let triangleNormal := (v1.subtract v0).cross (v2.subtract v0)
  if THIN_EPSILON * THIN_EPSILON < triangleNormal.lengthSq then
    decide (0 < triangleNormal.dot poly.plane.normal)
  else
    true

/-- The fan-triangulation loop of `operations::polygons_to_mesh` for one
polygon: triangles `(0, i, i+1)` for `i ∈ 1 .. len−2`, vertices duplicated
per triangle, winding flipped when `sameDirection` fails. -/
def fanTriangles (poly : Polygon) (acc : List Vec3 × List Nat) : List Vec3 × List Nat :=
  if 3 ≤ poly.vertices.length then
    let keep := sameDirection poly
    (List.range (poly.vertices.length - 2)).foldl
      (fun (acc : List Vec3 × List Nat) k =>
        let i := k + 1
        let baseIdx := acc.1.length
        let tri :=
          if keep then
            [poly.vertices.getD 0 Vec3.zero, poly.vertices.getD i Vec3.zero,
             poly.vertices.getD (i + 1) Vec3.zero]
          else
            [poly.vertices.getD 0 Vec3.zero, poly.vertices.getD (i + 1) Vec3.zero,
             poly.vertices.getD i Vec3.zero]
        (acc.1 ++ tri, acc.2 ++ [baseIdx, baseIdx + 1, baseIdx + 2]))
      acc
  else acc

/-- `MIN_TRIANGLE_AREA` from `operations::calculate_flat_normals` (`1e-8`). -/
def MIN_TRIANGLE_AREA : ℚ := 1 / 100000000

/-- The degenerate-triangle filter of `operations::calculate_flat_normals`:
`area > MIN_TRIANGLE_AREA && len > 1e-12` with `area = len / 2`, embedded
sqrt-free: `len/2 > a ∧ len > b ↔ lengthSq > (2a)² ∧ lengthSq > b²`
(for `a, b > 0`), and `(2·1e-8)² > (1e-12)²`, so the test is
`lengthSq > 4·1e-16`. -/
def keepTriangle (faceNormal : Vec3) : Bool :=
  decide ((2 * MIN_TRIANGLE_AREA) * (2 * MIN_TRIANGLE_AREA) < faceNormal.lengthSq)

/-- One iteration of the rebuild loop of `calculate_flat_normals`: skip
out-of-range or degenerate triangles, otherwise append the triangle's three
vertices, three fresh indices and three copies of its flat normal.  The face
normal `face_normal.scale(1.0/len)` goes through `Vec3.pseudoNormalize`
(positive multiple of the source's unit normal — no theorem below reads the
stored normal values).  The range guards `i0 >= vertices.len() || …` are the
source's own (it skips, it does not panic). -/
def flatNormalsStep (verts : List Vec3) (acc : List Vec3 × List Nat × List Vec3)
    (t : Nat × Nat × Nat) : List Vec3 × List Nat × List Vec3 :=
  if t.1 ≥ verts.length ∨ t.2.1 ≥ verts.length ∨ t.2.2 ≥ verts.length then acc
  else
    let v0 := verts.getD t.1 Vec3.zero
    let v1 := verts.getD t.2.1 Vec3.zero
    let v2 := verts.getD t.2.2 Vec3.zero
    let faceNormal := (v1.subtract v0).cross (v2.subtract v0)
    if keepTriangle faceNormal then
      let n := faceNormal.pseudoNormalize
      let newIdx := acc.1.length
      (acc.1 ++ [v0, v1, v2],
       acc.2.1 ++ [newIdx, newIdx + 1, newIdx + 2],
       acc.2.2 ++ [n, n, n])
    else acc

/-- `operations::calculate_flat_normals`: rebuild vertices/indices/normals
from the non-degenerate triangles, one flat normal per corner.  The mesh
`bounds` field is left untouched, exactly as in the source. -/
def calculateFlatNormals (mesh : Mesh) : Mesh :=
  let rebuilt := (tripleChunks mesh.indices).foldl (flatNormalsStep mesh.vertices)
    ([], [], [])
  { mesh with vertices := rebuilt.1, indices := rebuilt.2.1, normals := rebuilt.2.2 }

/-- `operations::polygons_to_mesh`. -/
def polygonsToMesh (polygons : List Polygon) : Mesh :=
  let built := polygons.foldl (fun acc poly => fanTriangles poly acc) ([], [])
  calculateFlatNormals (Mesh.new built.1 built.2)

/-- `operations::union` — the five-step BSP union protocol. -/
def union (meshA meshB : Mesh) : Mesh :=
  let polysA := meshToPolygons meshA
  let polysB := meshToPolygons meshB
  if polysA.isEmpty then meshB
  else if polysB.isEmpty then meshA
  else
    match BSPNode.fromPolygons polysA, BSPNode.fromPolygons polysB with
    | none, _ => meshB
    | some _, none => meshA
    | some a, some b =>
      let a := a.clipTo b
      let b := b.clipTo a
      let b := b.invert
      let b := b.clipTo a
      let b := b.invert
      polygonsToMesh (a.allPolygons ++ b.allPolygons)

/-- The per-polygon AABB-overlap test `poly_intersects_bounds` local to
`operations::difference`.  The running min/max start at `f32::MAX` /
`f32::MIN`, modelled by the `QE` sentinels (the two differ only on an empty
vertex list, which no constructed polygon has). -/
def polyIntersectsBounds (poly : Polygon) (bbMin bbMax : QE × QE × QE) : Bool :=
  let pMin := poly.vertices.foldl
    (fun (acc : QE × QE × QE) v =>
      (acc.1.min (.val v.x), acc.2.1.min (.val v.y), acc.2.2.min (.val v.z)))
    (.top, .top, .top)
  let pMax := poly.vertices.foldl
    (fun (acc : QE × QE × QE) v =>
      (acc.1.max (.val v.x), acc.2.1.max (.val v.y), acc.2.2.max (.val v.z)))
    (.bot, .bot, .bot)
  bbMin.1.le pMax.1 && pMin.1.le bbMax.1 &&
  bbMin.2.1.le pMax.2.1 && pMin.2.1.le bbMax.2.1 &&
  bbMin.2.2.le pMax.2.2 && pMin.2.2.le bbMax.2.2

/-- `operations::difference`, with its bounding-box short-circuits. -/
def difference (meshA meshB : Mesh) : Mesh :=
  let polysA := meshToPolygons meshA
  let polysB := meshToPolygons meshB
  if polysA.isEmpty then Mesh.new [] []
  else if polysB.isEmpty then meshA
  else
    let bbA := meshA.bounds
    let bbB := meshB.bounds
    let partA := polysA.partition (fun p => polyIntersectsBounds p bbB.min bbB.max)
    let aClip := partA.1
    let aPassthru := partA.2
    let bClip := (polysB.partition (fun p => polyIntersectsBounds p bbA.min bbA.max)).1
    if aClip.isEmpty then meshA
    else if bClip.isEmpty then meshA
    else
      match BSPNode.fromPolygons aClip, BSPNode.fromPolygons bClip with
      | none, _ => meshA
      | some _, none => meshA
      | some a, some b =>
        let a := a.invert
        let a := a.clipTo b
        let b := b.clipTo a
        let b := b.invert
        let b := b.clipTo a
        let b := b.invert
        let a := a.addPolygons b.allPolygons
        let a := a.invert
        polygonsToMesh (a.allPolygons ++ aPassthru)

/-- `operations::intersection`. -/
def intersection (meshA meshB : Mesh) : Mesh :=
  let polysA := meshToPolygons meshA
  let polysB := meshToPolygons meshB
  if polysA.isEmpty || polysB.isEmpty then Mesh.new [] []
  else
    match BSPNode.fromPolygons polysA, BSPNode.fromPolygons polysB with
    | none, _ => Mesh.new [] []
    | some _, none => Mesh.new [] []
    | some a, some b =>
      let a := a.invert
      let b := b.clipTo a
      let b := b.invert
      let a := a.clipTo b
      let b := b.clipTo a
      let a := a.addPolygons b.allPolygons
      let a := a.invert
      polygonsToMesh a.allPolygons

end operations

/-! ## `csg.rs`: the public CSG layer -/

namespace csg

/-- `csg::union` — the union exposed at the public API (`lib.rs` calls
`csg::union`, not the BSP protocol): copy the first mesh's buffers, push the
second mesh's indices offset by the first mesh's vertex count, append the
second mesh's vertices, rebuild through `Mesh::new`. -/
def union (meshA meshB : Mesh) : Mesh :=
  let combinedVertices := [] ++ meshA.vertices
  let combinedIndices := [] ++ meshA.indices
  let offset := meshA.vertices.length
  let combinedIndices := meshB.indices.foldl
    (fun acc idx => acc ++ [idx + offset]) combinedIndices
  let combinedVertices := combinedVertices ++ meshB.vertices
  Mesh.new combinedVertices combinedIndices

/-- `csg::difference` — delegates to `bsp::operations::difference`. -/
def difference (meshA meshB : Mesh) : Mesh := operations.difference meshA meshB

/-- `csg::intersection` — delegates to `bsp::operations::intersection`. -/
def intersection (meshA meshB : Mesh) : Mesh := operations.intersection meshA meshB

end csg

/-! ## `math.rs`: `Mat4` -/

/-- `Mat4` from `math.rs`: sixteen scalars in declaration order
`m[0], m[1], …, m[15]`. -/
structure Mat4 where
  m : List ℚ
deriving DecidableEq, Repr

namespace Mat4

/-- `Mat4::translation(x, y, z)`: the literal element order of the source,

```
[ 1, 0, 0, x,
  0, 1, 0, y,
  0, 0, 1, z,
  0, 0, 0, 1 ]
```
-/
def translation (x y z : ℚ) : Mat4 :=
  ⟨[1, 0, 0, x, 0, 1, 0, y, 0, 0, 1, z, 0, 0, 0, 1]⟩

/-- `Mat4::transform_point`.  The source builds the image with
`Vec3::new(m[0]x+m[1]y+m[2]z+m[3], m[4]x+…+m[7], m[8]x+…+m[11], m[12]x+…+m[15])`
— a fourth argument that `Vec3::new` (a three-parameter constructor) has no
field for; the embedding keeps the three components that `Vec3` stores. -/
def transformPoint (mat : Mat4) (point : Vec3) : Vec3 :=
  ⟨mat.m.getD 0 0 * point.x + mat.m.getD 1 0 * point.y + mat.m.getD 2 0 * point.z +
     mat.m.getD 3 0,
   mat.m.getD 4 0 * point.x + mat.m.getD 5 0 * point.y + mat.m.getD 6 0 * point.z +
     mat.m.getD 7 0,
   mat.m.getD 8 0 * point.x + mat.m.getD 9 0 * point.y + mat.m.getD 10 0 * point.z +
     mat.m.getD 11 0⟩

end Mat4

/-! ## `hull.rs`: robust incremental convex hull -/

namespace hull

/-- `EPSILON_TIGHT` (`1e-7`). -/
def EPSILON_TIGHT : ℚ := 1 / 10000000

/-- `EPSILON_LOOSE` (`1e-4`). -/
def EPSILON_LOOSE : ℚ := 1 / 10000

/-- `EPSILON_GRID` (`1e-5`). -/
def EPSILON_GRID : ℚ := 1 / 100000

/-- Rust `f32::round`: round half away from zero. -/
def rustRound (q : ℚ) : ℤ :=
  if 0 ≤ q then ⌊q + 1 / 2⌋ else -⌊-q + 1 / 2⌋

/-- `quantize_point`. -/
def quantizePoint (v : Vec3) : ℤ × ℤ × ℤ :=
  (rustRound (v.x / EPSILON_GRID), rustRound (v.y / EPSILON_GRID),
   rustRound (v.z / EPSILON_GRID))

/-- `adaptive_epsilon`: `EPSILON_LOOSE * max_coord.max(1.0)` where `max_coord`
folds `max` over the absolute values of all coordinates starting from `0.0`. -/
def adaptiveEpsilon (points : List Vec3) : ℚ :=
  let maxCoord := points.foldl (fun acc v => max acc (max |v.x| (max |v.y| |v.z|))) 0
  EPSILON_LOOSE * max maxCoord 1

/-- `dedup_points`: keep the first point of each quantised grid cell.  The
source's `HashSet` of seen keys is embedded as the list of seen keys
(identical membership semantics). -/
def dedupPoints (points : List Vec3) : List Vec3 :=
  (points.foldl
    (fun (acc : List (ℤ × ℤ × ℤ) × List Vec3) p =>
      let key := quantizePoint p
      if key ∈ acc.1 then acc else (acc.1 ++ [key], acc.2 ++ [p]))
    ([], [])).2

/-- `a/√x < b/√y` for `x, y > 0`, sqrt-free.  Used to embed the source's
comparisons between signed distances measured against *unit* face normals,
where the embedding stores the unnormalised normal `n` (so the distance is
`(n·w)/√(n.lengthSq)`). -/
def divSqrtLT (a x b y : ℚ) : Bool :=
  if 0 ≤ a then decide (0 ≤ b) && decide (a * a * y < b * b * x)
  else decide (0 ≤ b) || decide (b * b * x < a * a * y)

/-- `ConflictFace`.  `normal` holds the raw cross product — a positive
multiple `√lengthSq · n̂` of the source's stored unit normal; every use below
(visibility, distance comparison, orientation) is embedded sqrt-free against
this representation. -/
structure ConflictFace where
  vertices : ℕ × ℕ × ℕ
  normal : Vec3
  center : Vec3
  conflictPoints : List ℕ
  isVisible : Bool
deriving DecidableEq, Repr

namespace ConflictFace

/-- `ConflictFace::new` (degeneracy test `len < EPSILON_TIGHT` sqrt-free;
`normal.scale(1/len)` kept raw as documented on `ConflictFace`). -/
def new (v0 v1 v2 : ℕ) (points : List Vec3) : Option ConflictFace :=
  let p0 := points.getD v0 Vec3.zero
  let p1 := points.getD v1 Vec3.zero
  let p2 := points.getD v2 Vec3.zero
  let c := (p1.subtract p0).cross (p2.subtract p0)
  if c.lengthSq < EPSILON_TIGHT * EPSILON_TIGHT then none
  else
    some { vertices := (v0, v1, v2)
           normal := c
           center := ((p0.add p1).add p2).scale (1 / 3)
           conflictPoints := []
           isVisible := false }

/-- `ConflictFace::new_flipped`. -/
def newFlipped (v0 v1 v2 : ℕ) (points : List Vec3) : Option ConflictFace :=
  new v0 v2 v1 points

/-- `ConflictFace::point_visible`: `!is_on_plane && dist > 0` where
`dist = n̂·(p − center)` and `is_on_plane = |dist| < eps`; sqrt-free:
`|dist| < eps ↔ (n·(p−c))² < eps²·|n|²` and `dist > 0 ↔ n·(p−c) > 0`. -/
def pointVisible (f : ConflictFace) (point : Vec3) (eps : ℚ) : Bool :=
  let d := f.normal.dot (point.subtract f.center)
  !decide (d * d < eps * eps * f.normal.lengthSq) && decide (0 < d)

/-- `ConflictFace::edge`. -/
def edge (f : ConflictFace) (idx : ℕ) : ℕ × ℕ :=
  match idx with
  | 0 => (f.vertices.1, f.vertices.2.1)
  | 1 => (f.vertices.2.1, f.vertices.2.2)
  | _ => (f.vertices.2.2, f.vertices.1)

end ConflictFace

/-- `Edge::new`: canonical (sorted) edge key. -/
def edgeKey (a b : ℕ) : ℕ × ℕ := if a < b then (a, b) else (b, a)

/-- `find_min_x` (`Iterator::min_by` keeps the *first* of equal minima). -/
def findMinX (points : List Vec3) : ℕ :=
  (points.enum.foldl
    (fun (acc : Option (ℕ × ℚ)) pi =>
      match acc with
      | none => some (pi.1, pi.2.x)
      | some (bi, bx) => if pi.2.x < bx then some (pi.1, pi.2.x) else some (bi, bx))
    none).elim 0 Prod.fst

/-- `find_max_x` (`Iterator::max_by` keeps the *last* of equal maxima). -/
def findMaxX (points : List Vec3) : ℕ :=
  (points.enum.foldl
    (fun (acc : Option (ℕ × ℚ)) pi =>
      match acc with
      | none => some (pi.1, pi.2.x)
      | some (bi, bx) => if bx ≤ pi.2.x then some (pi.1, pi.2.x) else some (bi, bx))
    none).elim 0 Prod.fst

/-- `find_point_farthest_from_line`.  The perpendicular distance
`|to − (to·d̂)d̂|` is compared through its square
`to.lengthSq − (to·d)²/d.lengthSq` (exact in `ℚ`); the running best starts at
`eps`, squared. -/
def findFarthestFromLine (points : List Vec3) (v0 v1 : ℕ) (eps : ℚ) : Option ℕ :=
  let p0 := points.getD v0 Vec3.zero
  let p1 := points.getD v1 Vec3.zero
  let d := p1.subtract p0
  if d.lengthSq < EPSILON_TIGHT * EPSILON_TIGHT then none
  else
    (points.enum.foldl
      (fun (acc : Option ℕ × ℚ) pi =>
        if pi.1 = v0 ∨ pi.1 = v1 then acc
        else
          let w := pi.2.subtract p0
          let distSq := w.lengthSq - w.dot d * w.dot d / d.lengthSq
          if acc.2 < distSq then (some pi.1, distSq) else acc)
      (none, eps * eps)).1

/-- `find_point_farthest_from_plane` (distance `|n̂·(p−p0)|` compared through
`(n·(p−p0))²/n.lengthSq`; running best starts at `eps`, squared). -/
def findFarthestFromPlane (points : List Vec3) (v0 v1 v2 : ℕ) (eps : ℚ) : Option ℕ :=
  let p0 := points.getD v0 Vec3.zero
  let p1 := points.getD v1 Vec3.zero
  let p2 := points.getD v2 Vec3.zero
  let n := (p1.subtract p0).cross (p2.subtract p0)
  if n.lengthSq < EPSILON_TIGHT * EPSILON_TIGHT then none
  else
    (points.enum.foldl
      (fun (acc : Option ℕ × ℚ) pi =>
        if pi.1 = v0 ∨ pi.1 = v1 ∨ pi.1 = v2 then acc
        else
          let t := n.dot (pi.2.subtract p0)
          let distSq := t * t / n.lengthSq
          if acc.2 < distSq then (some pi.1, distSq) else acc)
      (none, eps * eps)).1

/-- The oriented-face construction shared by `build_initial_tetrahedron`'s
main path: build the face, flip it if its normal points toward the
centroid (`normal · (centroid − center) > 0`, sign-exact with the raw
normal); both constructor calls propagate `None`. -/
def mkOrientedFace (points : List Vec3) (centroid : Vec3) (c : ℕ × ℕ × ℕ) :
    Option ConflictFace := do
  let face ← ConflictFace.new c.1 c.2.1 c.2.2 points
  if 0 < face.normal.dot (centroid.subtract face.center) then
    ConflictFace.newFlipped c.1 c.2.1 c.2.2 points
  else
    pure face

/-- `build_initial_tetrahedron_fallback`: search the first
`min(len, 100)` points for a non-degenerate quadruple (`i < j < k`, fourth
point `l` at plane distance `> eps`).  Both length tests are sqrt-free.
Inside, faces that fail to construct are skipped and a failed flip keeps the
unflipped face, as in the source; a quadruple is accepted only when all four
faces construct. -/
def buildInitialTetrahedronFallback (points : List Vec3) (eps : ℚ) :
    Option (List ConflictFace) :=
  let n := Nat.min points.length 100
  (List.range n).findSome? (fun i =>
    (List.range n).findSome? (fun j =>
      if j ≤ i then none
      else
        (List.range n).findSome? (fun k =>
          if k ≤ j then none
          else
            let p0 := points.getD i Vec3.zero
            let p1 := points.getD j Vec3.zero
            let p2 := points.getD k Vec3.zero
            let c := (p1.subtract p0).cross (p2.subtract p0)
            if c.lengthSq < eps * eps then none
            else
              (List.range n).findSome? (fun l =>
                if l = i ∨ l = j ∨ l = k then none
                else
                  let t := c.dot ((points.getD l Vec3.zero).subtract p0)
                  if eps * eps * c.lengthSq < t * t then
                    let centroid := (((p0.add p1).add p2).add
                      (points.getD l Vec3.zero)).scale (1 / 4)
                    let faces := [(i, j, k), (i, l, j), (i, k, l), (j, l, k)].foldl
                      (fun acc config =>
                        match ConflictFace.new config.1 config.2.1 config.2.2 points with
                        | none => acc
                        | some face =>
                          let face :=
                            if 0 < face.normal.dot (centroid.subtract face.center) then
                              match ConflictFace.newFlipped config.1 config.2.1
                                  config.2.2 points with
                              | some flipped => flipped
                              | none => face
                            else face
                          acc ++ [face])
                      []
                    if faces.length = 4 then some faces else none
                  else none))))

/-- `build_initial_tetrahedron`. -/
def buildInitialTetrahedron (points : List Vec3) (eps : ℚ) :
    Option (List ConflictFace) :=
  if points.length < 4 then none
  else
    let v0 := findMinX points
    let v1 := findMaxX points
    if v0 = v1 then buildInitialTetrahedronFallback points eps
    else do
      let v2 ← findFarthestFromLine points v0 v1 eps
      let v3 ← findFarthestFromPlane points v0 v1 v2 eps
      let centroid := ((((points.getD v0 Vec3.zero).add (points.getD v1 Vec3.zero)).add
        (points.getD v2 Vec3.zero)).add (points.getD v3 Vec3.zero)).scale (1 / 4)
      [(v0, v1, v2), (v0, v3, v1), (v0, v2, v3), (v1, v3, v2)].mapM
        (mkOrientedFace points centroid)

/-- `find_best_conflict_point`: the face/point pair with maximum signed
distance over all conflict lists.  Distances are `n·(p−c)/√(n.lengthSq)` per
face; the strict comparisons against the running best (which starts at `0.0`,
represented as `0/√1`) go through `divSqrtLT`. -/
def findBestConflictPoint (faces : List ConflictFace) (points : List Vec3) :
    Option (ℕ × ℕ) :=
  let best := faces.enum.foldl
    (fun (acc : Option (ℕ × ℕ) × ℚ × ℚ) fi =>
      fi.2.conflictPoints.foldl
        (fun (acc : Option (ℕ × ℕ) × ℚ × ℚ) pi =>
          let num := fi.2.normal.dot ((points.getD pi Vec3.zero).subtract fi.2.center)
          if divSqrtLT acc.2.1 acc.2.2 num fi.2.normal.lengthSq then
            (some (pi, fi.1), num, fi.2.normal.lengthSq)
          else acc)
        acc)
    (none, 0, 1)
  best.1

/-- Insert an occurrence into the edge-occurrence table of
`find_horizon_edges`.  The source uses a `HashMap<Edge, Vec<(usize,usize)>>`;
the embedding uses an association list keyed in first-insertion order (the
per-occurrence `Vec`s are in insertion order exactly as in the source; the
*key* order only matters for the method-2 iteration, see `findHorizonEdges`). -/
def edgeInfoInsert (info : List ((ℕ × ℕ) × List (ℕ × ℕ))) (key : ℕ × ℕ)
    (dir : ℕ × ℕ) : List ((ℕ × ℕ) × List (ℕ × ℕ)) :=
  match info with
  | [] => [(key, [dir])]
  | (k, occs) :: rest =>
    if k = key then (k, occs ++ [dir]) :: rest
    else (k, occs) :: edgeInfoInsert rest key dir

/-- `find_horizon_edges`.  Method 1 (edges of non-visible faces that occur
exactly once among visible faces) iterates the face list, so its output order
is the source's.  Method 2 iterates the occurrence table; the source iterates
a `HashMap` there, whose order is unspecified and varies per process — the
embedding fixes first-insertion order (see the determinism claim C3 for why
this cannot be reconciled with a pure model). -/
def findHorizonEdges (faces : List ConflictFace) : List (ℕ × ℕ) :=
  let edgeInfo := faces.foldl
    (fun info face =>
      if !face.isVisible then info
      else
        [0, 1, 2].foldl
          (fun info i =>
            let e := face.edge i
            edgeInfoInsert info (edgeKey e.1 e.2) e)
          info)
    []
  let horizon := faces.foldl
    (fun horizon face =>
      if face.isVisible then horizon
      else
        [0, 1, 2].foldl
          (fun horizon i =>
            let e := face.edge i
            match edgeInfo.lookup (edgeKey e.1 e.2) with
            | some occurrences =>
              if occurrences.length = 1 then
                horizon ++ [((occurrences.getD 0 (0, 0)).2, (occurrences.getD 0 (0, 0)).1)]
              else horizon
            | none => horizon)
          horizon)
    []
  if horizon.isEmpty then
    edgeInfo.foldl
      (fun horizon kv =>
        if kv.2.length = 1 then
          horizon ++ [((kv.2.getD 0 (0, 0)).2, (kv.2.getD 0 (0, 0)).1)]
        else horizon)
      []
  else horizon

/-- `compute_centroid` over a set of indices (the source iterates a
`HashSet<usize>`; `ℚ` addition is commutative and associative, so the
iteration order is immaterial to the value — the embedding folds the
deduplicated insertion-order list, with the set's cardinality as divisor). -/
def computeCentroid (points : List Vec3) (indices : List ℕ) : Vec3 :=
  if indices.isEmpty then Vec3.new 0 0 0
  else
    (indices.foldl (fun sum i => sum.add (points.getD i Vec3.zero)) (Vec3.new 0 0 0)).scale
      (1 / (indices.length : ℚ))

/-- Insert an index into a deduplicated insertion-order list (the embedding
of `HashSet<usize>` insertion). -/
def insertIdx (l : List ℕ) (i : ℕ) : List ℕ :=
  if i ∈ l then l else l ++ [i]

/-- Conflict assignment: give point `i` to the first face that sees it
(`for face in faces { if visible { push; break } }`). -/
def assignToFirst (eps : ℚ) (i : ℕ) (p : Vec3) : List ConflictFace → List ConflictFace
  | [] => []
  | f :: rest =>
    if f.pointVisible p eps then
      { f with conflictPoints := f.conflictPoints ++ [i] } :: rest
    else f :: assignToFirst eps i p rest

/-- One refinement state of the incremental loop of `incremental_hull`
(`Step 3`), fuelled by the source's `max_iterations = points.len() * 3`. -/
def hullLoop (points : List Vec3) (eps : ℚ) :
    ℕ → List ConflictFace → List ℕ → List ConflictFace
  | 0, faces, _ => faces
  | fuel + 1, faces, processed =>
    match findBestConflictPoint faces points with
    | none => faces
    | some (apex, _) =>
      let processed := insertIdx processed apex
      let apexPoint := points.getD apex Vec3.zero
      let faces := faces.map
        (fun f => { f with isVisible := f.pointVisible apexPoint eps })
      if (faces.filter (·.isVisible)).length = 0 then
        hullLoop points eps fuel faces processed
      else
        let horizon := findHorizonEdges faces
        if horizon.isEmpty then hullLoop points eps fuel faces processed
        else
          let orphaned := (faces.foldl
            (fun orphaned f =>
              if f.isVisible then
                orphaned ++ f.conflictPoints.filter (fun pi => pi ≠ apex ∧ pi ∉ processed)
              else orphaned)
            []).mergeSort (· ≤ ·) |>.dedup
          let faces := faces.filter (fun f => !f.isVisible)
          let hullCenter := computeCentroid points processed
          let newFaces := horizon.foldl
            (fun newFaces e =>
              match ConflictFace.new e.1 e.2 apex points with
              | none => newFaces
              | some face =>
                let face :=
                  if 0 < face.normal.dot (hullCenter.subtract face.center) then
                    match ConflictFace.newFlipped e.1 e.2 apex points with
                    | some flipped => flipped
                    | none => face
                  else face
                newFaces ++ [face])
            []
          let newFaces := orphaned.foldl
            (fun newFaces pi => assignToFirst eps pi (points.getD pi Vec3.zero) newFaces)
            newFaces
          hullLoop points eps fuel (faces ++ newFaces) processed

/-- `incremental_hull`. -/
def incrementalHull (points : List Vec3) : Option Mesh :=
  if points.length < 4 then none
  else
    let eps := adaptiveEpsilon points
    match buildInitialTetrahedron points eps with
    | none => none
    | some faces =>
      let tetVertices := faces.foldl
        (fun s f => insertIdx (insertIdx (insertIdx s f.vertices.1) f.vertices.2.1)
          f.vertices.2.2)
        []
      let faces := points.enum.foldl
        (fun faces pi =>
          if pi.1 ∈ tetVertices then faces
          else assignToFirst eps pi.1 pi.2 faces)
        faces
      let final := hullLoop points eps (points.length * 3) faces tetVertices
      if final.isEmpty then none
      else
        let built := final.foldl
          (fun (acc : List Vec3 × List ℕ) f =>
            let baseIdx := acc.1.length
            (acc.1 ++ [points.getD f.vertices.1 Vec3.zero,
              points.getD f.vertices.2.1 Vec3.zero,
              points.getD f.vertices.2.2 Vec3.zero],
             acc.2 ++ [baseIdx, baseIdx + 1, baseIdx + 2]))
          ([], [])
        some (Mesh.new built.1 built.2)

end hull

namespace hull

/-- `detect_coplanar_set`: find the first pair `(i, j)` (`1 ≤ i < j`,
lexicographic, as the source's nested loops) whose cross product with
`points[0]` has length `> eps` (sqrt-free: `lengthSq > eps²`), then test every
point against that plane (`|n̂·(p−p0)| > eps`, sqrt-free:
`(n·(p−p0))² > eps²·|n|²`).  The source returns the *unit* normal; the
embedding returns `Vec3.pseudoNormalize n`, a positive multiple of it —
the only consumer, `hull_coplanar_points`, is invariant under that positive
factor (see `buildPlaneBasis` and `convexHull2d`). -/
def detectCoplanarSet (points : List Vec3) (eps : ℚ) : Option (Vec3 × Vec3) :=
  if points.length < 3 then none
  else
    let p0 := points.getD 0 Vec3.zero
    let raw := (List.range points.length).findSome? (fun i =>
      if i < 1 then none
      else
        (List.range points.length).findSome? (fun j =>
          if j ≤ i then none
          else
            let n := ((points.getD i Vec3.zero).subtract p0).cross
              ((points.getD j Vec3.zero).subtract p0)
            if eps * eps < n.lengthSq then some n else none))
    match raw with
    | none => some (p0, Vec3.new 0 0 1)
    | some n =>
      if points.all (fun p =>
          let t := n.dot (p.subtract p0)
          t * t ≤ eps * eps * n.lengthSq) then
        some (p0, n.pseudoNormalize)
      else none

/-- `build_plane_basis`.  The source receives a unit normal and tests
`normal.x.abs() < 0.9`; the embedding receives a positive multiple `λ·n̂` and
tests `x² < 0.9²·lengthSq`, which is the same test exactly.  `u` and `v` are
`pseudoNormalize`d (positive multiples of the source's unit basis vectors);
`convexHull2d` below is invariant under independent positive scalings of the
two projected coordinates, and only the hull *indices* flow onward. -/
def buildPlaneBasis (normal : Vec3) : Vec3 × Vec3 :=
  let notParallel :=
    if normal.x * normal.x < (9 / 10) * (9 / 10) * normal.lengthSq then
      Vec3.new 1 0 0
    else Vec3.new 0 1 0
  let u := (normal.cross notParallel).pseudoNormalize
  let v := (normal.cross u).pseudoNormalize
  (u, v)

/-- `cross_2d`. -/
def cross2d (o a b : ℚ × ℚ) : ℚ :=
  (a.1 - o.1) * (b.2 - o.2) - (a.2 - o.2) * (b.1 - o.1)

/-- `dist_sq_2d`. -/
def distSq2d (a b : ℚ × ℚ) : ℚ :=
  (b.1 - a.1) * (b.1 - a.1) + (b.2 - a.2) * (b.2 - a.2)

/-- The inner candidate scan of one gift-wrapping step: start from
`next = 0`, then for each `i`: skip `i == current`; if `next == current`
take `i`; otherwise replace `next` by `i` when the turn is clockwise
(`cross < 0`) or collinear-but-farther. -/
def giftWrapNext (pts : List (ℚ × ℚ)) (current : ℕ) : ℕ :=
  (List.range pts.length).foldl
    (fun next i =>
      if i = current then next
      else if next = current then i
      else
        let c := cross2d (pts.getD current (0, 0)) (pts.getD next (0, 0))
          (pts.getD i (0, 0))
        if c < 0 ∨ (c = 0 ∧
            distSq2d (pts.getD current (0, 0)) (pts.getD next (0, 0)) <
              distSq2d (pts.getD current (0, 0)) (pts.getD i (0, 0))) then i
        else next)
    0

/-- The gift-wrapping loop of `convex_hull_2d`, fuelled by its own safety
bound (`hull.len() > points.len()` breaks, and each iteration pushes one
index, so `points.len() + 1` iterations suffice to reach either exit). -/
def giftWrapLoop (pts : List (ℚ × ℚ)) (start : ℕ) :
    ℕ → List ℕ → ℕ → List ℕ
  | 0, h, _ => h
  | fuel + 1, h, current =>
    let next := giftWrapNext pts current
    if next = start then h
    else
      let h := h ++ [next]
      if pts.length < h.length then h
      else giftWrapLoop pts start fuel h next

/-- `convex_hull_2d` (Jarvis march). -/
def convexHull2d (pts : List (ℚ × ℚ)) : List ℕ :=
  if pts.length < 3 then List.range pts.length
  else
    let start := pts.enum.foldl
      (fun start pi =>
        if pi.2.1 < (pts.getD start (0, 0)).1 ∨
            (pi.2.1 = (pts.getD start (0, 0)).1 ∧ pi.2.2 < (pts.getD start (0, 0)).2) then
          pi.1
        else start)
      0
    giftWrapLoop pts start (pts.length + 1) [start] start

/-- `hull_coplanar_points`: project onto the plane basis, take the 2D hull,
fan-triangulate it back into a (thin) 3D mesh of the *original* points. -/
def hullCoplanarPoints (points : List Vec3) (planePoint planeNormal : Vec3) : Mesh :=
  if points.length < 3 then Mesh.new points []
  else
    let basis := buildPlaneBasis planeNormal
    let points2d := points.map (fun p =>
      let d := p.subtract planePoint
      (d.dot basis.1, d.dot basis.2))
    let hullIndices := convexHull2d points2d
    if hullIndices.length < 3 then Mesh.new points []
    else
      let first := hullIndices.getD 0 0
      let built := (List.range (hullIndices.length - 2)).foldl
        (fun (acc : List Vec3 × List ℕ) k =>
          let i := k + 1
          let baseIdx := acc.1.length
          (acc.1 ++ [points.getD first Vec3.zero,
            points.getD (hullIndices.getD i 0) Vec3.zero,
            points.getD (hullIndices.getD (i + 1) 0) Vec3.zero],
           acc.2 ++ [baseIdx, baseIdx + 1, baseIdx + 2]))
        ([], [])
      Mesh.new built.1 built.2

/-- One step of the `wrapping_mul`/`wrapping_add` linear congruential
generator of `perturb_points` (`u64` arithmetic, modelled exactly
mod `2^64`). -/
def lcgNext (s : ℕ) : ℕ := (s * 6364136223846793005 + 1) % (2 ^ 64)

/-- One perturbation draw:
`((seed >> 32) as f32 / u32::MAX as f32 − 0.5) · EPSILON_TIGHT · 10`,
computed exactly over `ℚ` (the two `f32` casts round in the source; the
idealised value differs by less than one part in `2^24`, far below every
margin the theorems below rely on). -/
def lcgDraw (s : ℕ) : ℚ :=
  (((s / 2 ^ 32 : ℕ) : ℚ) / 4294967295 - 1 / 2) * (EPSILON_TIGHT * 10)

/-- `perturb_points` (seed fixed at `12345`). -/
def perturbPoints (points : List Vec3) : List Vec3 :=
  (points.foldl
    (fun (acc : ℕ × List Vec3) p =>
      let s1 := lcgNext acc.1
      let s2 := lcgNext s1
      let s3 := lcgNext s2
      (s3, acc.2 ++ [Vec3.new (p.x + lcgDraw s1) (p.y + lcgDraw s2) (p.z + lcgDraw s3)]))
    (12345, [])).2

/-- The validation `compute_hull` applies to each incremental attempt:
it produced a mesh with at least 4 vertices and at least 4 indices. -/
def hullValid : Option Mesh → Bool
  | none => false
  | some h => 4 ≤ h.vertices.length && 4 ≤ h.indices.length

/-- Take a validated hull attempt or fall through. -/
def takeValid (attempt : Option Mesh) (fallthru : Mesh) : Mesh :=
  match attempt with
  | some h => if 4 ≤ h.vertices.length ∧ 4 ≤ h.indices.length then h else fallthru
  | none => fallthru

/-- `compute_hull`: the public hull with its full fallback chain. -/
def computeHull (mesh : Mesh) : Mesh :=
  if mesh.vertices.length < 4 then mesh
  else
    let points := dedupPoints mesh.vertices
    if points.length < 4 then
      let eps := adaptiveEpsilon points
      match detectCoplanarSet points eps with
      | some (planePoint, planeNormal) => hullCoplanarPoints points planePoint planeNormal
      | none => mesh
    else
      let eps := adaptiveEpsilon points
      match detectCoplanarSet points eps with
      | some (planePoint, planeNormal) => hullCoplanarPoints points planePoint planeNormal
      | none =>
        takeValid (incrementalHull points)
          (takeValid (incrementalHull (perturbPoints points)) mesh)

end hull

/-! ## Spec-side definitions

Definitions in this section follow the *specification's* words, to be compared
with the source-derived definitions above. -/

/-- Modelled from the spec: the fast "union-lite" of §4.5 — "concatenate
vertex and index buffers, offsetting the second mesh's indices" — as one
direct expression. -/
def specUnionLite (a b : Mesh) : Mesh :=
  Mesh.new (a.vertices ++ b.vertices)
    (a.indices ++ b.indices.map (fun idx => idx + a.vertices.length))

/-- The coordinate-wise minimum of a list of scalars (`QE.top` for the empty
list), the spec's reading of a bound component. -/
def qListMin : List ℚ → QE
  | [] => QE.top
  | a :: rest => (QE.val a).min (qListMin rest)

/-- The coordinate-wise maximum of a list of scalars (`QE.bot` for the empty
list). -/
def qListMax : List ℚ → QE
  | [] => QE.bot
  | a :: rest => (QE.val a).max (qListMax rest)

/-- The spec's AABB of a vertex list: coordinate-wise min/max. -/
def specAabb (verts : List Vec3) : Bounds :=
  { min := (qListMin (verts.map Vec3.x), qListMin (verts.map Vec3.y),
      qListMin (verts.map Vec3.z))
    max := (qListMax (verts.map Vec3.x), qListMax (verts.map Vec3.y),
      qListMax (verts.map Vec3.z)) }

/-- `<` on bound coordinates (strictly below). -/
def QE.lt : QE → QE → Bool
  | .bot, .bot => false
  | .bot, _ => true
  | _, .bot => false
  | .top, _ => false
  | .val _, .top => true
  | .val a, .val b => decide (a < b)

/-- Two AABBs are disjoint: on some axis one box ends strictly before the
other begins. -/
def aabbDisjoint (x y : Bounds) : Bool :=
  (x.max.1.lt y.min.1 || y.max.1.lt x.min.1) ||
  (x.max.2.1.lt y.min.2.1 || y.max.2.1.lt x.min.2.1) ||
  (x.max.2.2.lt y.min.2.2 || y.max.2.2.lt x.min.2.2)

/-- A vertex lies inside an AABB (componentwise). -/
def inBounds (b : Bounds) (v : Vec3) : Bool :=
  b.min.1.le (.val v.x) && (QE.val v.x).le b.max.1 &&
  b.min.2.1.le (.val v.y) && (QE.val v.y).le b.max.2.1 &&
  b.min.2.2.le (.val v.z) && (QE.val v.z).le b.max.2.2

/-- The `a_clip` partition block of `operations::difference`: the polygons of
`A` whose AABB intersects `B`'s bounds. -/
def operations.aClipOf (a b : Mesh) : List Polygon :=
  ((operations.meshToPolygons a).partition
    (fun p => operations.polyIntersectsBounds p b.bounds.min b.bounds.max)).1

/-- The `b_clip` partition block of `operations::difference`. -/
def operations.bClipOf (a b : Mesh) : List Polygon :=
  ((operations.meshToPolygons b).partition
    (fun p => operations.polyIntersectsBounds p a.bounds.min a.bounds.max)).1

/-- The interpolated intersection points inserted by the split loop of
`Polygon::split_by_plane` (one per strictly-Front/strictly-Back cyclic edge,
pushed to both sides). -/
def newPoints (poly : Polygon) (plane : Plane) : List Vec3 :=
  (cycPairs (poly.vertices.zip (poly.vertices.map plane.classifyPoint))).flatMap
    (fun pq => if isSpanEdge pq.1.2 pq.2.2 then [crossPoint plane pq.1.1 pq.2.1] else [])

/-- The vertex list of the Front fragment of a `SplitResult`. -/
def resultFrontVerts : SplitResult → List Vec3
  | .Front p => p.vertices
  | .CoplanarFront p => p.vertices
  | .Split (some f) _ => f.vertices
  | _ => []

/-- The vertex list of the Back fragment of a `SplitResult`. -/
def resultBackVerts : SplitResult → List Vec3
  | .Back p => p.vertices
  | .CoplanarBack p => p.vertices
  | .Split _ (some b) => b.vertices
  | _ => []

/-! ## Helper lemmas -/

lemma Vec3.scale_neg_one_neg_one (v : Vec3) : (v.scale (-1)).scale (-1) = v := by
  cases v
  simp [Vec3.scale]

lemma plane_flip_flip (p : Plane) : p.flip.flip = p := by
  cases p
  simp [Plane.flip, Vec3.scale_neg_one_neg_one]

lemma polygon_flip_flip (p : Polygon) : p.flip.flip = p := by
  cases p
  simp [Polygon.flip, plane_flip_flip]

/-- **C9.** `BSPNode::invert` is an involution: applying it twice restores the
tree exactly — every polygon's vertex order and plane (`Polygon::flip` is an
involution: reversing the reversed vertex ring and negating the negated plane
restores both), every node's splitting plane, and the front/back child
structure. -/
theorem C9_invert_involution (t : BSPNode) : t.invert.invert = t := by
  induction t with
  | nil => rfl
  | mk plane front back polygons ihf ihb =>
    simp [BSPNode.invert, ihf, ihb, Function.comp_def, polygon_flip_flip]
    cases plane with
    | none => rfl
    | some p => simp [plane_flip_flip]

lemma foldl_push_map (l : List ℕ) (init : List ℕ) (f : ℕ → ℕ) :
    l.foldl (fun acc i => acc ++ [f i]) init = init ++ l.map f := by
  induction l generalizing init with
  | nil => simp
  | cons a t ih => simp [ih]

/-- **C1 (amended).** The public-API `union` (`csg::union`, the function
`lib.rs` exposes) is the vertex/index *concatenation*: `A`'s buffers followed
by `B`'s vertices and `B`'s indices offset by `|A.vertices|`, rebuilt through
`Mesh::new` — not the五-step BSP protocol.  `difference` and `intersection`
at the same layer *do* delegate to the BSP-backed
`operations::difference` / `operations::intersection`, and the five-step
union protocol exists as `bsp::operations::union` (which `csg::union` never
calls; the counterexample exhibits two meshes on which the two unions
differ). -/
theorem C1_union_is_concatenation (a b : Mesh) :
    csg.union a b = specUnionLite a b ∧
    csg.difference a b = operations.difference a b ∧
    csg.intersection a b = operations.intersection a b := by
  refine ⟨?_, rfl, rfl⟩
  simp [csg.union, specUnionLite, foldl_push_map]

/-- Meshes on which the concatenation union and the BSP-protocol union
differ: two disjoint triangles (the concatenation keeps all six vertices; the
BSP protocol discards `A`'s triangle, which lies behind `B`'s only plane, and
rebuilds three vertices). -/
def cexMeshA : Mesh :=
  Mesh.new [Vec3.new 0 0 0, Vec3.new 1 0 0, Vec3.new 0 1 0] [0, 1, 2]

/-- Second operand of the C1 counterexample. -/
def cexMeshB : Mesh :=
  Mesh.new [Vec3.new 10 10 10, Vec3.new 11 10 10, Vec3.new 10 11 10] [0, 1, 2]

/-- **C1, counterexample.** At two concrete disjoint triangle meshes the
public-API union does not equal the five-step BSP union protocol's result. -/
theorem C1_counterexample : csg.union cexMeshA cexMeshB ≠ operations.union cexMeshA cexMeshB := by
  decide

/-- **C4 (amended).** `Mat4` is stored **row**-major: `Mat4::translation(x,y,z)`
holds `x, y, z` at elements 3, 7 and 11 (the last column under a row-major
reading), its final four elements are `(0,0,0,1)`, and `transform_point`
applies the affine map so that the translation matrix sends every point `p`
to `p + (x,y,z)`. -/
theorem C4_translation_row_major (x y z : ℚ) (p : Vec3) :
    (Mat4.translation x y z).m.getD 3 0 = x ∧
    (Mat4.translation x y z).m.getD 7 0 = y ∧
    (Mat4.translation x y z).m.getD 11 0 = z ∧
    (Mat4.translation x y z).m.drop 12 = [0, 0, 0, 1] ∧
    (Mat4.translation x y z).transformPoint p = Vec3.new (p.x + x) (p.y + y) (p.z + z) := by
  refine ⟨rfl, rfl, rfl, rfl, ?_⟩
  simp only [Mat4.translation, Mat4.transformPoint, Vec3.new, List.getD]
  norm_num

/-- **C4, counterexample.** The final four elements of the 16-element array of
`Mat4::translation(1, 2, 3)` are `(0,0,0,1)`, not `(x,y,z,1) = (1,2,3,1)` —
the matrix is *not* stored column-major. -/
theorem C4_counterexample :
    ¬ ((Mat4.translation 1 2 3).m.drop 12 = [(1 : ℚ), 2, 3, 1]) := by decide

/-- **C8 (amended).** `Vec3::normalize` returns the zero vector exactly for
inputs of length zero — i.e. only for the zero vector itself (so no division
by zero, hence no NaN, ever occurs); every vector of *positive* length —
however small — is instead scaled by the reciprocal of its length.  (`len` is
the Euclidean length, pinned by `0 ≤ len` and `len · len = lengthSq`.) -/
theorem C8_normalize_zero_only_for_zero (v : Vec3) (len : ℚ)
    (hnn : 0 ≤ len) (hsq : len * len = v.lengthSq) :
    (len = 0 → v = Vec3.zero ∧ v.normalize len = Vec3.zero) ∧
    (0 < len → v.normalize len = v.scale (1 / len)) := by
  constructor
  · intro h0
    subst h0
    obtain ⟨a, b, c⟩ := v
    have hx : a * a + b * b + c * c = 0 := by
      simpa [Vec3.lengthSq] using hsq.symm
    have ha : a = 0 := by nlinarith [mul_self_nonneg a, mul_self_nonneg b, mul_self_nonneg c]
    have hb : b = 0 := by nlinarith [mul_self_nonneg a, mul_self_nonneg b, mul_self_nonneg c]
    have hc : c = 0 := by nlinarith [mul_self_nonneg a, mul_self_nonneg b, mul_self_nonneg c]
    exact ⟨by simp [Vec3.zero, ha, hb, hc], by simp [Vec3.normalize]⟩
  · intro hpos
    simp [Vec3.normalize, hpos]

/-- **C8, witness.** The theorem applied at `v = (3,4,0)`, `len = 5`. -/
theorem C8_witness :
    (0 : ℚ) ≤ 5 ∧ (5 : ℚ) * 5 = (Vec3.new 3 4 0).lengthSq ∧
    Vec3.normalize (Vec3.new 3 4 0) 5 = (Vec3.new 3 4 0).scale (1 / 5) :=
  ⟨by norm_num, by decide,
    (C8_normalize_zero_only_for_zero (Vec3.new 3 4 0) 5 (by norm_num) (by decide)).2
      (by norm_num)⟩

/-- **C8, counterexample.** The vector `(10⁻⁶, 0, 0)` has length
`10⁻⁶ ≤ EPSILON = 10⁻⁴` (the repository's tolerance), yet `normalize` does
*not* return the zero vector on it: the source's branch is `len > 0.0`, with
no positive tolerance. -/
theorem C8_counterexample :
    (0 : ℚ) ≤ 1 / 1000000 ∧
    (1 / 1000000 : ℚ) * (1 / 1000000) = (Vec3.new (1 / 1000000) 0 0).lengthSq ∧
    (1 / 1000000 : ℚ) ≤ EPSILON ∧
    Vec3.normalize (Vec3.new (1 / 1000000) 0 0) (1 / 1000000) ≠ Vec3.zero := by
  refine ⟨by norm_num, by decide, by norm_num [EPSILON], by decide⟩

lemma QE.min_top_right (q : QE) : q.min .top = q := by cases q <;> rfl

lemma QE.top_min (q : QE) : QE.min .top q = q := rfl

lemma QE.max_bot_right (q : QE) : q.max .bot = q := by cases q <;> rfl

lemma QE.bot_max (q : QE) : QE.max .bot q = q := rfl

lemma qeMin_assoc (a b c : QE) : (a.min b).min c = a.min (b.min c) := by
  cases a <;> cases b <;> cases c <;>
    first
    | rfl
    | exact congrArg QE.val (min_assoc _ _ _)

lemma qeMax_assoc (a b c : QE) : (a.max b).max c = a.max (b.max c) := by
  cases a <;> cases b <;> cases c <;>
    first
    | rfl
    | exact congrArg QE.val (max_assoc _ _ _)

lemma foldl_qe_min (l : List ℚ) (q : QE) :
    l.foldl (fun acc x => acc.min (QE.val x)) q = q.min (qListMin l) := by
  induction l generalizing q with
  | nil => simp [qListMin, QE.min_top_right]
  | cons a t ih => simp [qListMin, List.foldl_cons, ih, qeMin_assoc]

lemma foldl_qe_max (l : List ℚ) (q : QE) :
    l.foldl (fun acc x => acc.max (QE.val x)) q = q.max (qListMax l) := by
  induction l generalizing q with
  | nil => simp [qListMax, QE.max_bot_right]
  | cons a t ih => simp [qListMax, List.foldl_cons, ih, qeMax_assoc]

lemma foldl_addPoint_min_x (verts : List Vec3) (b : Bounds) :
    (verts.foldl Bounds.addPoint b).min.1 =
      b.min.1.min (qListMin (verts.map Vec3.x)) := by
  induction verts generalizing b with
  | nil => simp [qListMin, QE.min_top_right]
  | cons v t ih => simp [List.foldl_cons, ih, Bounds.addPoint, qListMin, qeMin_assoc]

lemma foldl_addPoint_min_y (verts : List Vec3) (b : Bounds) :
    (verts.foldl Bounds.addPoint b).min.2.1 =
      b.min.2.1.min (qListMin (verts.map Vec3.y)) := by
  induction verts generalizing b with
  | nil => simp [qListMin, QE.min_top_right]
  | cons v t ih => simp [List.foldl_cons, ih, Bounds.addPoint, qListMin, qeMin_assoc]

lemma foldl_addPoint_min_z (verts : List Vec3) (b : Bounds) :
    (verts.foldl Bounds.addPoint b).min.2.2 =
      b.min.2.2.min (qListMin (verts.map Vec3.z)) := by
  induction verts generalizing b with
  | nil => simp [qListMin, QE.min_top_right]
  | cons v t ih => simp [List.foldl_cons, ih, Bounds.addPoint, qListMin, qeMin_assoc]

lemma foldl_addPoint_max_x (verts : List Vec3) (b : Bounds) :
    (verts.foldl Bounds.addPoint b).max.1 =
      b.max.1.max (qListMax (verts.map Vec3.x)) := by
  induction verts generalizing b with
  | nil => simp [qListMax, QE.max_bot_right]
  | cons v t ih => simp [List.foldl_cons, ih, Bounds.addPoint, qListMax, qeMax_assoc]

lemma foldl_addPoint_max_y (verts : List Vec3) (b : Bounds) :
    (verts.foldl Bounds.addPoint b).max.2.1 =
      b.max.2.1.max (qListMax (verts.map Vec3.y)) := by
  induction verts generalizing b with
  | nil => simp [qListMax, QE.max_bot_right]
  | cons v t ih => simp [List.foldl_cons, ih, Bounds.addPoint, qListMax, qeMax_assoc]

lemma foldl_addPoint_max_z (verts : List Vec3) (b : Bounds) :
    (verts.foldl Bounds.addPoint b).max.2.2 =
      b.max.2.2.max (qListMax (verts.map Vec3.z)) := by
  induction verts generalizing b with
  | nil => simp [qListMax, QE.max_bot_right]
  | cons v t ih => simp [List.foldl_cons, ih, Bounds.addPoint, qListMax, qeMax_assoc]

lemma Bounds.ext' {a b : Bounds} (h1 : a.min = b.min) (h2 : a.max = b.max) :
    a = b := by
  cases a
  cases b
  simp_all

/-- `Mesh::new` computes exactly the spec's AABB of the vertex list. -/
lemma meshNew_bounds (verts : List Vec3) (idx : List ℕ) :
    (Mesh.new verts idx).bounds = specAabb verts := by
  apply Bounds.ext'
  · refine Prod.ext ?_ (Prod.ext ?_ ?_)
    · show (verts.foldl Bounds.addPoint Bounds.new).min.1 = (specAabb verts).min.1
      rw [foldl_addPoint_min_x]
      rfl
    · show (verts.foldl Bounds.addPoint Bounds.new).min.2.1 = (specAabb verts).min.2.1
      rw [foldl_addPoint_min_y]
      rfl
    · show (verts.foldl Bounds.addPoint Bounds.new).min.2.2 = (specAabb verts).min.2.2
      rw [foldl_addPoint_min_z]
      rfl
  · refine Prod.ext ?_ (Prod.ext ?_ ?_)
    · show (verts.foldl Bounds.addPoint Bounds.new).max.1 = (specAabb verts).max.1
      rw [foldl_addPoint_max_x]
      rfl
    · show (verts.foldl Bounds.addPoint Bounds.new).max.2.1 = (specAabb verts).max.2.1
      rw [foldl_addPoint_max_y]
      rfl
    · show (verts.foldl Bounds.addPoint Bounds.new).max.2.2 = (specAabb verts).max.2.2
      rw [foldl_addPoint_max_z]
      rfl

lemma normalsStep_length (verts normals : List Vec3) (t : ℕ × ℕ × ℕ) :
    (Mesh.normalsStep verts normals t).length = normals.length := by
  simp [Mesh.normalsStep]

lemma foldl_normalsStep_length (verts : List Vec3) (chunks : List (ℕ × ℕ × ℕ)) :
    ∀ init : List Vec3,
      (chunks.foldl (Mesh.normalsStep verts) init).length = init.length := by
  induction chunks with
  | nil => intro init; rfl
  | cons c t ih =>
    intro init
    rw [List.foldl_cons, ih, normalsStep_length]

lemma calculateNormals_length (verts : List Vec3) (idx : List ℕ) :
    (Mesh.calculateNormals verts idx).length = verts.length := by
  unfold Mesh.calculateNormals
  rw [List.length_map, foldl_normalsStep_length, List.length_replicate]

/-- The filtered rebuild of `calculate_flat_normals` keeps the index/count
invariants, for every input mesh. -/
lemma calculateFlatNormals_inv (m : Mesh) :
    (operations.calculateFlatNormals m).indices.length % 3 = 0 ∧
    (∀ i ∈ (operations.calculateFlatNormals m).indices,
        i < (operations.calculateFlatNormals m).vertices.length) ∧
    (operations.calculateFlatNormals m).normals.length =
      (operations.calculateFlatNormals m).vertices.length := by
  have key : ∀ (chunks : List (ℕ × ℕ × ℕ)) (init : List Vec3 × List ℕ × List Vec3),
      init.2.1.length % 3 = 0 → (∀ i ∈ init.2.1, i < init.1.length) →
      init.2.2.length = init.1.length →
      (chunks.foldl (operations.flatNormalsStep m.vertices) init).2.1.length % 3 = 0 ∧
      (∀ i ∈ (chunks.foldl (operations.flatNormalsStep m.vertices) init).2.1,
          i < (chunks.foldl (operations.flatNormalsStep m.vertices) init).1.length) ∧
      (chunks.foldl (operations.flatNormalsStep m.vertices) init).2.2.length =
        (chunks.foldl (operations.flatNormalsStep m.vertices) init).1.length := by
    intro chunks
    induction chunks with
    | nil => exact fun init h1 h2 h3 => ⟨h1, h2, h3⟩
    | cons c t ih =>
      intro init hmod hlt hlen
      rw [List.foldl_cons]
      refine ih _ ?_ ?_ ?_ <;> unfold operations.flatNormalsStep <;> simp only
      · split
        · exact hmod
        · split
          · simp [Nat.add_mod, hmod]
          · exact hmod
      · split
        · exact hlt
        · split
          · intro i hi
            simp only [List.mem_append, List.mem_cons, List.not_mem_nil, or_false] at hi
            simp only [List.length_append, List.length_cons, List.length_nil]
            rcases hi with hi | hi | hi | hi
            · have := hlt i hi
              omega
            · omega
            · omega
            · omega
          · exact hlt
      · split
        · exact hlen
        · split
          · simp [hlen]
          · exact hlen
  exact key (tripleChunks m.indices) ([], [], []) (by simp) (by simp) (by simp)

/-- **C2 (amended).** `Mesh::new` stores the given vertices and indices
unchanged, produces exactly one normal per vertex, and sets `bounds` to the
coordinate-wise min/max of the vertices (stated for index lists whose entries
are in range — out-of-range entries panic in the source); consequently its
result's index count is a multiple of 3 with all values in range exactly when
the *input* index list satisfies that.  For every mesh rebuilt by the boolean
operators' `polygons_to_mesh`, the index invariants hold unconditionally:
`|indices| ≡ 0 (mod 3)`, every index below `|vertices|`, and
`|normals| = |vertices|`. -/
theorem C2_mesh_invariants :
    (∀ (verts : List Vec3) (idx : List ℕ), (∀ i ∈ idx, i < verts.length) →
      (Mesh.new verts idx).vertices = verts ∧
      (Mesh.new verts idx).indices = idx ∧
      (Mesh.new verts idx).normals.length = verts.length ∧
      (Mesh.new verts idx).bounds = specAabb verts) ∧
    (∀ polys : List Polygon,
      (operations.polygonsToMesh polys).indices.length % 3 = 0 ∧
      (∀ i ∈ (operations.polygonsToMesh polys).indices,
          i < (operations.polygonsToMesh polys).vertices.length) ∧
      (operations.polygonsToMesh polys).normals.length =
        (operations.polygonsToMesh polys).vertices.length) := by
  constructor
  · intro verts idx _
    exact ⟨rfl, rfl, calculateNormals_length verts idx, meshNew_bounds verts idx⟩
  · intro polys
    exact calculateFlatNormals_inv _

/-- **C2, witness.** The theorem applied at a concrete triangle mesh and a
concrete one-polygon list. -/
theorem C2_witness :
    (Mesh.new [Vec3.new 0 0 0, Vec3.new 1 0 0, Vec3.new 0 1 0] [0, 1, 2]).bounds =
      specAabb [Vec3.new 0 0 0, Vec3.new 1 0 0, Vec3.new 0 1 0] ∧
    (operations.polygonsToMesh
        [{ vertices := [Vec3.new 0 0 0, Vec3.new 1 0 0, Vec3.new 0 1 0]
           plane := { normal := Vec3.new 0 0 1, w := 0 } }]).indices.length % 3 = 0 :=
  ⟨(C2_mesh_invariants.1 [Vec3.new 0 0 0, Vec3.new 1 0 0, Vec3.new 0 1 0] [0, 1, 2]
      (by decide)).2.2.2,
   (C2_mesh_invariants.2
      [{ vertices := [Vec3.new 0 0 0, Vec3.new 1 0 0, Vec3.new 0 1 0]
         plane := { normal := Vec3.new 0 0 1, w := 0 } }]).1⟩

/-- **C2, counterexample.** `Mesh::new` happily returns a mesh whose index
count is *not* a multiple of 3: the claim's invariant does not hold for every
mesh returned by `Mesh::new`. -/
theorem C2_counterexample :
    ¬ ((Mesh.new [Vec3.new 0 0 0] [0]).indices.length % 3 = 0) := by decide

lemma classify_front_sd {P : Plane} {v : Vec3} (h : P.classifyPoint v = .Front) :
    EPSILON < P.signedDistance v := by
  unfold Plane.classifyPoint at h
  by_cases h1 : P.signedDistance v < -EPSILON
  · simp [h1] at h
  · by_cases h2 : EPSILON < P.signedDistance v
    · exact h2
    · simp [h1, h2] at h

lemma classify_back_sd {P : Plane} {v : Vec3} (h : P.classifyPoint v = .Back) :
    P.signedDistance v < -EPSILON := by
  unfold Plane.classifyPoint at h
  by_cases h1 : P.signedDistance v < -EPSILON
  · exact h1
  · by_cases h2 : EPSILON < P.signedDistance v
    · simp [h1, h2] at h
    · simp [h1, h2] at h

lemma classify_not_back_sd {P : Plane} {v : Vec3} (h : P.classifyPoint v ≠ .Back) :
    -EPSILON ≤ P.signedDistance v := by
  unfold Plane.classifyPoint at h
  by_cases h1 : P.signedDistance v < -EPSILON
  · simp [h1] at h
  · linarith [not_lt.mp h1]

lemma classify_not_front_sd {P : Plane} {v : Vec3} (h : P.classifyPoint v ≠ .Front) :
    P.signedDistance v ≤ EPSILON := by
  unfold Plane.classifyPoint at h
  by_cases h1 : P.signedDistance v < -EPSILON
  · unfold EPSILON at *
    linarith
  · by_cases h2 : EPSILON < P.signedDistance v
    · simp [h1, h2] at h
    · linarith [not_lt.mp h2]

/-- The interpolation denominator is the difference of the two signed
distances. -/
lemma denom_eq_sd_diff (P : Plane) (vi vj : Vec3) :
    P.normal.dot (vj.subtract vi) = P.signedDistance vj - P.signedDistance vi := by
  cases vi
  cases vj
  simp [Vec3.dot, Vec3.subtract, Plane.signedDistance]
  ring

lemma sd_add_scale (P : Plane) (v d : Vec3) (t : ℚ) :
    P.signedDistance (v.add (d.scale t)) = P.signedDistance v + t * P.normal.dot d := by
  cases v
  cases d
  simp [Vec3.dot, Vec3.add, Vec3.scale, Plane.signedDistance]
  ring

/-- For a strictly spanning edge the denominator exceeds `2·EPSILON` in
magnitude. -/
lemma spanEdge_denom_big {P : Plane} {vi vj : Vec3}
    (hi : P.classifyPoint vi = .Front) (hj : P.classifyPoint vj = .Back) :
    2 * EPSILON < |P.normal.dot (vj.subtract vi)| := by
  have h1 := classify_front_sd hi
  have h2 := classify_back_sd hj
  rw [denom_eq_sd_diff]
  rw [abs_sub_comm, abs_of_pos (by unfold EPSILON at *; linarith)]
  unfold EPSILON at *
  linarith

/-- A strictly spanning edge's inserted point lies exactly on the plane (over
exact arithmetic): the guard admits the interpolation branch, the
interpolation parameter lies in `[0,1]` so the clamp is the identity, and the
interpolated point has signed distance zero. -/
lemma crossPoint_sd_zero_aux (P : Plane) (a b : Vec3)
    (hs : (EPSILON < P.signedDistance a ∧ P.signedDistance b < -EPSILON) ∨
          (P.signedDistance a < -EPSILON ∧ EPSILON < P.signedDistance b)) :
    P.signedDistance (crossPoint P a b) = 0 := by
  have heps : (0 : ℚ) < EPSILON := by unfold EPSILON; norm_num
  have hd : P.normal.dot (b.subtract a) = P.signedDistance b - P.signedDistance a :=
    denom_eq_sd_diff P a b
  set s := P.signedDistance a with hsdef
  set e := P.signedDistance b with hedef
  have hne : s - e ≠ 0 := by
    rcases hs with ⟨h1, h2⟩ | ⟨h1, h2⟩ <;> intro hc <;> linarith
  have hguard : EPSILON * (1 / 10) < |P.normal.dot (b.subtract a)| := by
    rw [hd]
    rcases hs with ⟨h1, h2⟩ | ⟨h1, h2⟩
    · rw [abs_of_neg (by linarith)]
      linarith
    · rw [abs_of_pos (by linarith)]
      linarith
  have hws : P.w - P.normal.dot a = -s := by
    rw [hsdef]
    unfold Plane.signedDistance
    ring
  have ht : (P.w - P.normal.dot a) / P.normal.dot (b.subtract a) = s / (s - e) := by
    rw [hd, hws, show e - s = -(s - e) by ring]
    exact neg_div_neg_eq s (s - e)
  have ht0 : 0 ≤ s / (s - e) := by
    rcases hs with ⟨h1, h2⟩ | ⟨h1, h2⟩
    · exact le_of_lt (div_pos (by linarith) (by linarith))
    · rw [show s / (s - e) = -s / (e - s) by
        rw [show e - s = -(s - e) by ring]
        exact (neg_div_neg_eq s (s - e)).symm]
      exact le_of_lt (div_pos (by linarith) (by linarith))
  have ht1 : s / (s - e) ≤ 1 := by
    rcases hs with ⟨h1, h2⟩ | ⟨h1, h2⟩
    · rw [div_le_one (by linarith)]
      linarith
    · rw [show s / (s - e) = -s / (e - s) by
        rw [show e - s = -(s - e) by ring]
        exact (neg_div_neg_eq s (s - e)).symm]
      rw [div_le_one (by linarith)]
      linarith
  unfold crossPoint
  rw [if_pos hguard, sd_add_scale, ht, min_eq_left ht1, max_eq_right ht0, hd]
  rw [show e - s = -(s - e) by ring, mul_neg, div_mul_cancel₀ s hne]
  ring

lemma crossPoint_sd_zero {P : Plane} {vi vj : Vec3}
    (h : isSpanEdge (P.classifyPoint vi) (P.classifyPoint vj) = true) :
    P.signedDistance (crossPoint P vi vj) = 0 := by
  unfold isSpanEdge at h
  simp only [Bool.or_eq_true, Bool.and_eq_true, decide_eq_true_eq] at h
  rcases h with ⟨ha, hb⟩ | ⟨ha, hb⟩
  · exact crossPoint_sd_zero_aux P vi vj
      (Or.inl ⟨classify_front_sd ha, classify_back_sd hb⟩)
  · exact crossPoint_sd_zero_aux P vi vj
      (Or.inr ⟨classify_back_sd ha, classify_front_sd hb⟩)

/-- **C10.** In `Polygon::split_by_plane`, whenever an edge's endpoints are
classified strictly Front and strictly Back, the interpolation denominator
`P.normal · (vj − vi)` has magnitude greater than `2·EPSILON`, which always
exceeds the `0.1·EPSILON` guard, so the edge-midpoint fallback branch is not
taken and the inserted intersection point is the clamped linear
interpolation. -/
theorem C10_midpoint_fallback_unreachable (P : Plane) (vi vj : Vec3)
    (hi : P.classifyPoint vi = .Front) (hj : P.classifyPoint vj = .Back) :
    2 * EPSILON < |P.normal.dot (vj.subtract vi)| ∧
    EPSILON * (1 / 10) < 2 * EPSILON ∧
    crossPoint P vi vj =
      vi.add ((vj.subtract vi).scale
        (max 0 (min ((P.w - P.normal.dot vi) / P.normal.dot (vj.subtract vi)) 1))) := by
  have hbig := spanEdge_denom_big hi hj
  refine ⟨hbig, by unfold EPSILON; norm_num, ?_⟩
  unfold crossPoint
  rw [if_pos (by unfold EPSILON at *; linarith)]

/-- **C10, witness.** The theorem applied at the plane `z = 0` and the edge
from `(0,0,1)` (Front) to `(0,0,−1)` (Back). -/
theorem C10_witness :
    2 * EPSILON <
      |Plane.normal { normal := Vec3.new 0 0 1, w := 0 } |>.dot
        ((Vec3.new 0 0 (-1)).subtract (Vec3.new 0 0 1))| :=
  (C10_midpoint_fallback_unreachable { normal := Vec3.new 0 0 1, w := 0 }
    (Vec3.new 0 0 1) (Vec3.new 0 0 (-1)) (by decide) (by decide)).1

lemma tripleChunks_subset : ∀ (l : List ℕ), ∀ t ∈ tripleChunks l,
    t.1 ∈ l ∧ t.2.1 ∈ l ∧ t.2.2 ∈ l
  | [] => by simp [tripleChunks]
  | [_] => by simp [tripleChunks]
  | [_, _] => by simp [tripleChunks]
  | a :: b :: c :: rest => by
    intro t ht
    simp only [tripleChunks, List.mem_cons] at ht
    rcases ht with rfl | ht
    · simp
    · have := tripleChunks_subset rest t ht
      simp only [List.mem_cons]
      tauto

lemma getD_mem {α : Type} {l : List α} {i : ℕ} (h : i < l.length) (d : α) :
    l.getD i d ∈ l := by
  rw [List.getD_eq_getElem l d h]
  exact List.getElem_mem h

/-- Every polygon produced by `mesh_to_polygons` comes from one index triple,
as `Polygon::new` of the three indexed vertices. -/
lemma mem_meshToPolygons {m : Mesh} {p : Polygon}
    (hp : p ∈ operations.meshToPolygons m) :
    ∃ t ∈ tripleChunks m.indices,
      Polygon.new [m.vertices.getD t.1 Vec3.zero, m.vertices.getD t.2.1 Vec3.zero,
        m.vertices.getD t.2.2 Vec3.zero] = some p := by
  have key : ∀ (chunks : List (ℕ × ℕ × ℕ)) (init : List Polygon),
      p ∈ chunks.foldl
        (fun polygons t =>
          match Polygon.new [m.vertices.getD t.1 Vec3.zero,
              m.vertices.getD t.2.1 Vec3.zero, m.vertices.getD t.2.2 Vec3.zero] with
          | some poly => polygons ++ [poly]
          | none => polygons)
        init →
      p ∈ init ∨ ∃ t ∈ chunks,
        Polygon.new [m.vertices.getD t.1 Vec3.zero, m.vertices.getD t.2.1 Vec3.zero,
          m.vertices.getD t.2.2 Vec3.zero] = some p := by
    intro chunks
    induction chunks with
    | nil => exact fun init h => Or.inl h
    | cons c rest ih =>
      intro init h
      rw [List.foldl_cons] at h
      rcases ih _ h with hin | ⟨t, ht, hnew⟩
      · rcases hc : Polygon.new [m.vertices.getD c.1 Vec3.zero,
            m.vertices.getD c.2.1 Vec3.zero, m.vertices.getD c.2.2 Vec3.zero] with _ | poly
        · rw [hc] at hin
          exact Or.inl hin
        · rw [hc] at hin
          simp only [List.mem_append, List.mem_cons, List.not_mem_nil, or_false] at hin
          rcases hin with hin | rfl
          · exact Or.inl hin
          · exact Or.inr ⟨c, List.mem_cons_self c rest, hc⟩
      · exact Or.inr ⟨t, List.mem_cons_of_mem c ht, hnew⟩
  rcases key (tripleChunks m.indices) [] hp with h | h
  · simp at h
  · exact h

lemma Polygon.new_vertices {vs : List Vec3} {p : Polygon} (h : Polygon.new vs = some p) :
    p.vertices = vs := by
  unfold Polygon.new at h
  split at h
  · exact absurd h (by simp)
  · split at h
    · exact absurd h (by simp)
    · cases h
      rfl

lemma qe_killMax {bmin amax : QE} {x0 x1 x2 : ℚ}
    (h0 : (QE.val x0).le amax = true) (h1 : (QE.val x1).le amax = true)
    (h2 : (QE.val x2).le amax = true) (hd : amax.lt bmin = true) :
    bmin.le (QE.val (max (max x0 x1) x2)) = false := by
  cases amax with
  | top => cases bmin <;> simp [QE.lt] at hd
  | bot => simp [QE.le] at h0
  | val am =>
    cases bmin with
    | top => rfl
    | bot => simp [QE.lt] at hd
    | val bm =>
      simp only [QE.le, decide_eq_true_eq] at h0 h1 h2
      simp only [QE.lt, decide_eq_true_eq] at hd
      simp only [QE.le, decide_eq_false_iff_not, not_le]
      have : max (max x0 x1) x2 ≤ am := by
        apply max_le (max_le h0 h1) h2
      linarith

lemma qe_killMin {bmax amin : QE} {x0 x1 x2 : ℚ}
    (h0 : amin.le (QE.val x0) = true) (h1 : amin.le (QE.val x1) = true)
    (h2 : amin.le (QE.val x2) = true) (hd : bmax.lt amin = true) :
    (QE.val (min (min x0 x1) x2)).le bmax = false := by
  cases amin with
  | bot => cases bmax <;> simp [QE.lt] at hd
  | top => simp [QE.le] at h0
  | val am =>
    cases bmax with
    | top => simp [QE.lt] at hd
    | bot => simp [QE.le]
    | val bm =>
      simp only [QE.le, decide_eq_true_eq] at h0 h1 h2
      simp only [QE.lt, decide_eq_true_eq] at hd
      simp only [QE.le, decide_eq_false_iff_not, not_le]
      have : am ≤ min (min x0 x1) x2 := by
        apply le_min (le_min h0 h1) h2
      linarith

/-- **C7.** In `operations::difference(A, B)` the inputs are partitioned by
axis-aligned bounding boxes before any BSP tree is built: if no polygon of `A`
has an AABB intersecting `B`'s bounds (`a_clip` empty) or no polygon of `B`
has an AABB intersecting `A`'s bounds (`b_clip` empty), the result is mesh `A`
unchanged (provided `A` contributes at least one polygon — see the
counterexample for `A` without polygons); in particular, for two meshes whose
bounds are AABB-disjoint (with in-range indices and vertices inside their
stored bounds) the difference has the same face count as `A`. -/
theorem C7_difference_bbox_shortcircuit :
    (∀ a b : Mesh, operations.meshToPolygons a ≠ [] →
      (operations.aClipOf a b = [] ∨ operations.bClipOf a b = []) →
      operations.difference a b = a) ∧
    (∀ a b : Mesh, operations.meshToPolygons a ≠ [] →
      (∀ i ∈ a.indices, i < a.vertices.length) →
      (∀ v ∈ a.vertices, inBounds a.bounds v = true) →
      aabbDisjoint a.bounds b.bounds = true →
      (operations.difference a b).faceCount = a.faceCount) := by
  have part1 : ∀ a b : Mesh, operations.meshToPolygons a ≠ [] →
      (operations.aClipOf a b = [] ∨ operations.bClipOf a b = []) →
      operations.difference a b = a := by
    intro a b hA hclip
    unfold operations.difference
    rw [if_neg (by simpa [List.isEmpty_iff] using hA)]
    by_cases hB : (operations.meshToPolygons b).isEmpty
    · rw [if_pos hB]
    · rw [if_neg hB]
      simp only
      rcases hclip with h | h
      · rw [if_pos]
        simpa [List.isEmpty_iff, operations.aClipOf] using h
      · by_cases hac :
          ((operations.meshToPolygons a).partition
            (fun p => operations.polyIntersectsBounds p b.bounds.min b.bounds.max)).1.isEmpty
        · rw [if_pos hac]
        · rw [if_neg hac, if_pos]
          simpa [List.isEmpty_iff, operations.bClipOf] using h
  refine ⟨part1, ?_⟩
  intro a b hA hidx hin hd
  have hclip : operations.aClipOf a b = [] := by
    unfold operations.aClipOf
    rw [List.partition_eq_filter_filter]
    simp only [List.filter_eq_nil_iff]
    intro p hp
    intro hcontra
    obtain ⟨t, ht, hnew⟩ := mem_meshToPolygons hp
    obtain ⟨ht1, ht2, ht3⟩ := tripleChunks_subset a.indices t ht
    have hverts := Polygon.new_vertices hnew
    set v0 := a.vertices.getD t.1 Vec3.zero with hv0def
    set v1 := a.vertices.getD t.2.1 Vec3.zero with hv1def
    set v2 := a.vertices.getD t.2.2 Vec3.zero with hv2def
    have hm0 : v0 ∈ a.vertices := getD_mem (hidx t.1 ht1) Vec3.zero
    have hm1 : v1 ∈ a.vertices := getD_mem (hidx t.2.1 ht2) Vec3.zero
    have hm2 : v2 ∈ a.vertices := getD_mem (hidx t.2.2 ht3) Vec3.zero
    have hb0 := hin v0 hm0
    have hb1 := hin v1 hm1
    have hb2 := hin v2 hm2
    simp only [inBounds, Bool.and_eq_true] at hb0 hb1 hb2
    obtain ⟨⟨⟨⟨⟨b0x1, b0x2⟩, b0y1⟩, b0y2⟩, b0z1⟩, b0z2⟩ := hb0
    obtain ⟨⟨⟨⟨⟨b1x1, b1x2⟩, b1y1⟩, b1y2⟩, b1z1⟩, b1z2⟩ := hb1
    obtain ⟨⟨⟨⟨⟨b2x1, b2x2⟩, b2y1⟩, b2y2⟩, b2z1⟩, b2z2⟩ := hb2
    unfold operations.polyIntersectsBounds at hcontra
    rw [hverts] at hcontra
    simp only [List.foldl_cons, List.foldl_nil, Bool.and_eq_true] at hcontra
    obtain ⟨⟨⟨⟨⟨c1, c2⟩, c3⟩, c4⟩, c5⟩, c6⟩ := hcontra
    simp only [aabbDisjoint, Bool.or_eq_true] at hd
    rcases hd with ((hx | hx) | (hy | hy)) | (hz | hz)
    · have hk : b.bounds.min.1.le (QE.val (max (max v0.x v1.x) v2.x)) = false :=
        qe_killMax b0x2 b1x2 b2x2 hx
      have c1' : b.bounds.min.1.le (QE.val (max (max v0.x v1.x) v2.x)) = true := c1
      rw [hk] at c1'
      exact Bool.false_ne_true c1'
    · have hk : (QE.val (min (min v0.x v1.x) v2.x)).le b.bounds.max.1 = false :=
        qe_killMin b0x1 b1x1 b2x1 hx
      have c2' : (QE.val (min (min v0.x v1.x) v2.x)).le b.bounds.max.1 = true := c2
      rw [hk] at c2'
      exact Bool.false_ne_true c2'
    · have hk : b.bounds.min.2.1.le (QE.val (max (max v0.y v1.y) v2.y)) = false :=
        qe_killMax b0y2 b1y2 b2y2 hy
      have c3' : b.bounds.min.2.1.le (QE.val (max (max v0.y v1.y) v2.y)) = true := c3
      rw [hk] at c3'
      exact Bool.false_ne_true c3'
    · have hk : (QE.val (min (min v0.y v1.y) v2.y)).le b.bounds.max.2.1 = false :=
        qe_killMin b0y1 b1y1 b2y1 hy
      have c4' : (QE.val (min (min v0.y v1.y) v2.y)).le b.bounds.max.2.1 = true := c4
      rw [hk] at c4'
      exact Bool.false_ne_true c4'
    · have hk : b.bounds.min.2.2.le (QE.val (max (max v0.z v1.z) v2.z)) = false :=
        qe_killMax b0z2 b1z2 b2z2 hz
      have c5' : b.bounds.min.2.2.le (QE.val (max (max v0.z v1.z) v2.z)) = true := c5
      rw [hk] at c5'
      exact Bool.false_ne_true c5'
    · have hk : (QE.val (min (min v0.z v1.z) v2.z)).le b.bounds.max.2.2 = false :=
        qe_killMin b0z1 b1z1 b2z1 hz
      have c6' : (QE.val (min (min v0.z v1.z) v2.z)).le b.bounds.max.2.2 = true := c6
      rw [hk] at c6'
      exact Bool.false_ne_true c6'
  rw [part1 a b hA (Or.inl hclip)]

/-- **C7, witness.** The theorem applied at two concrete AABB-disjoint
triangle meshes: the difference is `A` unchanged, with `A`'s face count. -/
theorem C7_witness :
    operations.difference cexMeshA cexMeshB = cexMeshA ∧
    (operations.difference cexMeshA cexMeshB).faceCount = cexMeshA.faceCount :=
  ⟨(C7_difference_bbox_shortcircuit.1 cexMeshA cexMeshB (by decide) (Or.inl (by decide))),
   (C7_difference_bbox_shortcircuit.2 cexMeshA cexMeshB (by decide) (by decide) (by decide)
     (by decide))⟩

lemma zip_self_map {α β : Type} (l : List α) (f : α → β) :
    l.zip (l.map f) = l.map (fun a => (a, f a)) := by
  induction l with
  | nil => rfl
  | cons a t ih => simp [ih]

lemma cycPairs_eq (l : List Vec3) (f : Vec3 → PointClass) :
    cycPairs (l.zip (l.map f)) =
      (l.zip (l.rotate 1)).map (fun ab => ((ab.1, f ab.1), (ab.2, f ab.2))) := by
  unfold cycPairs
  rw [zip_self_map, ← List.map_rotate, List.zip_map]
  simp [Prod.map]

lemma frontRim_eq (poly : Polygon) (P : Plane) :
    frontRim poly P =
      (poly.vertices.zip (poly.vertices.rotate 1)).flatMap
        (fun ab => stepFront P (ab.1, P.classifyPoint ab.1) (ab.2, P.classifyPoint ab.2)) := by
  unfold frontRim
  rw [cycPairs_eq, List.flatMap_map]

lemma backRim_eq (poly : Polygon) (P : Plane) :
    backRim poly P =
      (poly.vertices.zip (poly.vertices.rotate 1)).flatMap
        (fun ab => stepBack P (ab.1, P.classifyPoint ab.1) (ab.2, P.classifyPoint ab.2)) := by
  unfold backRim
  rw [cycPairs_eq, List.flatMap_map]

lemma newPoints_eq (poly : Polygon) (P : Plane) :
    newPoints poly P =
      (poly.vertices.zip (poly.vertices.rotate 1)).flatMap
        (fun ab => if isSpanEdge (P.classifyPoint ab.1) (P.classifyPoint ab.2) then
          [crossPoint P ab.1 ab.2] else []) := by
  unfold newPoints
  rw [cycPairs_eq, List.flatMap_map]

/-- Membership in one `front_verts` step contribution. -/
lemma mem_stepFront {P : Plane} {vi vj v : Vec3} {ci cj : PointClass}
    (h : v ∈ stepFront P (vi, ci) (vj, cj)) :
    (v = vi ∧ ci ≠ .Back) ∨ (isSpanEdge ci cj = true ∧ v = crossPoint P vi vj) := by
  unfold stepFront at h
  rcases List.mem_append.mp h with h | h
  · cases ci <;> simp at h <;> simp [h]
  · by_cases hs : isSpanEdge ci cj
    · rw [if_pos hs] at h
      simp at h
      exact Or.inr ⟨hs, h⟩
    · rw [if_neg hs] at h
      simp at h

lemma mem_stepBack {P : Plane} {vi vj v : Vec3} {ci cj : PointClass}
    (h : v ∈ stepBack P (vi, ci) (vj, cj)) :
    (v = vi ∧ ci ≠ .Front) ∨ (isSpanEdge ci cj = true ∧ v = crossPoint P vi vj) := by
  unfold stepBack at h
  rcases List.mem_append.mp h with h | h
  · cases ci <;> simp at h <;> simp [h]
  · by_cases hs : isSpanEdge ci cj
    · rw [if_pos hs] at h
      simp at h
      exact Or.inr ⟨hs, h⟩
    · rw [if_neg hs] at h
      simp at h

/-- Every vertex of the accumulated `front_verts` has signed distance at
least `−EPSILON`. -/
lemma frontRim_sd_ge (poly : Polygon) (P : Plane) :
    ∀ v ∈ frontRim poly P, -EPSILON ≤ P.signedDistance v := by
  intro v hv
  rw [frontRim_eq] at hv
  obtain ⟨ab, _, hstep⟩ := List.mem_flatMap.mp hv
  rcases mem_stepFront hstep with ⟨rfl, hne⟩ | ⟨hspan, rfl⟩
  · exact classify_not_back_sd hne
  · rw [crossPoint_sd_zero hspan]
    unfold EPSILON
    norm_num

lemma backRim_sd_le (poly : Polygon) (P : Plane) :
    ∀ v ∈ backRim poly P, P.signedDistance v ≤ EPSILON := by
  intro v hv
  rw [backRim_eq] at hv
  obtain ⟨ab, _, hstep⟩ := List.mem_flatMap.mp hv
  rcases mem_stepBack hstep with ⟨rfl, hne⟩ | ⟨hspan, rfl⟩
  · exact classify_not_front_sd hne
  · rw [crossPoint_sd_zero hspan]
    unfold EPSILON
    norm_num

lemma exists_zip_pair {α β : Type} :
    ∀ (l1 : List α) (l2 : List β), l1.length = l2.length →
      ∀ a ∈ l1, ∃ b, (a, b) ∈ l1.zip l2 := by
  intro l1
  induction l1 with
  | nil => simp
  | cons x t ih =>
    intro l2 hlen a ha
    cases l2 with
    | nil => simp at hlen
    | cons y t2 =>
      rcases List.mem_cons.mp ha with rfl | ha
      · exact ⟨y, by simp⟩
      · obtain ⟨b, hb⟩ := ih t2 (by simpa using hlen) a ha
        exact ⟨b, by simp [hb]⟩

/-- Every list element heads one cyclically adjacent pair. -/
lemma exists_cyc_pair {α : Type} {l : List α} {a : α} (h : a ∈ l) :
    ∃ b, (a, b) ∈ l.zip (l.rotate 1) :=
  exists_zip_pair l (l.rotate 1) (by simp) a h

lemma frontRim_subset (poly : Polygon) (P : Plane) :
    ∀ v ∈ frontRim poly P, v ∈ poly.vertices ∨ v ∈ newPoints poly P := by
  intro v hv
  rw [frontRim_eq] at hv
  obtain ⟨ab, hab, hstep⟩ := List.mem_flatMap.mp hv
  rcases mem_stepFront hstep with ⟨rfl, _⟩ | ⟨hspan, rfl⟩
  · exact Or.inl (List.of_mem_zip hab).1
  · refine Or.inr ?_
    rw [newPoints_eq]
    exact List.mem_flatMap.mpr ⟨ab, hab, by rw [if_pos hspan]; simp⟩

lemma backRim_subset (poly : Polygon) (P : Plane) :
    ∀ v ∈ backRim poly P, v ∈ poly.vertices ∨ v ∈ newPoints poly P := by
  intro v hv
  rw [backRim_eq] at hv
  obtain ⟨ab, hab, hstep⟩ := List.mem_flatMap.mp hv
  rcases mem_stepBack hstep with ⟨rfl, _⟩ | ⟨hspan, rfl⟩
  · exact Or.inl (List.of_mem_zip hab).1
  · refine Or.inr ?_
    rw [newPoints_eq]
    exact List.mem_flatMap.mpr ⟨ab, hab, by rw [if_pos hspan]; simp⟩

/-- **C5 (amended).** Properties of `Polygon::split_by_plane(P)` over exact
arithmetic: (1) every vertex of the Front fragment has signed distance to `P`
at least `−EPSILON` and (2) every vertex of the Back fragment at most
`+EPSILON`; (3) a vertex classified Coplanar is pushed into *both* rims;
(4) every input vertex reaches at least one rim; (5)–(6) each rim consists of
input vertices and interpolated points only, where (7) every interpolated
point comes from an edge whose endpoints are classified strictly Front and
strictly Back — so no intersection point is generated for an edge with a
Coplanar endpoint; and (8) a *triangle* generates at most two interpolated
points.  (For polygons with more than three vertices the two-point bound
fails — see the counterexample.) -/
theorem C5_split_by_plane (poly : Polygon) (P : Plane) :
    (∀ v ∈ resultFrontVerts (poly.splitByPlane P), -EPSILON ≤ P.signedDistance v) ∧
    (∀ v ∈ resultBackVerts (poly.splitByPlane P), P.signedDistance v ≤ EPSILON) ∧
    (∀ v ∈ poly.vertices, P.classifyPoint v = .Coplanar →
      v ∈ frontRim poly P ∧ v ∈ backRim poly P) ∧
    (∀ v ∈ poly.vertices, v ∈ frontRim poly P ∨ v ∈ backRim poly P) ∧
    (∀ v ∈ frontRim poly P, v ∈ poly.vertices ∨ v ∈ newPoints poly P) ∧
    (∀ v ∈ backRim poly P, v ∈ poly.vertices ∨ v ∈ newPoints poly P) ∧
    (∀ v ∈ newPoints poly P, ∃ a b, a ∈ poly.vertices ∧ b ∈ poly.vertices ∧
      isSpanEdge (P.classifyPoint a) (P.classifyPoint b) = true ∧
      v = crossPoint P a b) ∧
    (poly.vertices.length = 3 → (newPoints poly P).length ≤ 2) := by
  refine ⟨?_, ?_, ?_, ?_, frontRim_subset poly P, backRim_subset poly P, ?_, ?_⟩
  · -- (1) Front fragment distance bound
    intro v hv
    simp only [Polygon.splitByPlane] at hv
    by_cases hf : (List.map P.classifyPoint poly.vertices).any
        (fun c => decide (c = PointClass.Front)) = true
    · by_cases hb : (List.map P.classifyPoint poly.vertices).any
          (fun c => decide (c = PointClass.Back)) = true
      · rw [hf, hb] at hv
        simp only [Bool.not_true, Bool.false_and, Bool.false_eq_true, if_false,
          ite_false] at hv
        cases hopt : Polygon.new (frontRim poly P) with
        | none =>
          rw [hopt] at hv
          simp [resultFrontVerts] at hv
        | some q =>
          rw [hopt] at hv
          by_cases hlen : 3 ≤ (frontRim poly P).length
          · rw [if_pos hlen] at hv
            simp only [resultFrontVerts] at hv
            rw [Polygon.new_vertices hopt] at hv
            exact frontRim_sd_ge poly P v hv
          · rw [if_neg hlen] at hv
            simp [resultFrontVerts] at hv
      · have hb' : (List.map P.classifyPoint poly.vertices).any
            (fun c => decide (c = PointClass.Back)) = false := by
          simpa using hb
        rw [hf, hb'] at hv
        simp only [Bool.not_true, Bool.not_false, Bool.false_and, Bool.false_eq_true,
          if_false, ite_false, ite_true, Bool.true_eq_false] at hv
        simp only [resultFrontVerts] at hv
        refine classify_not_back_sd fun hc => ?_
        rw [List.any_eq_false] at hb'
        exact absurd (by simpa using hc) (by
          simpa using hb' (P.classifyPoint v) (List.mem_map_of_mem P.classifyPoint hv))
    · have hf' : (List.map P.classifyPoint poly.vertices).any
          (fun c => decide (c = PointClass.Front)) = false := by
        simpa using hf
      rw [hf'] at hv
      by_cases hb : (List.map P.classifyPoint poly.vertices).any
          (fun c => decide (c = PointClass.Back)) = true
      · rw [hb] at hv
        simp only [Bool.not_false, Bool.not_true, Bool.true_and, Bool.false_eq_true,
          Bool.true_eq_false, if_false, ite_false, ite_true] at hv
        simp [resultFrontVerts] at hv
      · have hb' : (List.map P.classifyPoint poly.vertices).any
            (fun c => decide (c = PointClass.Back)) = false := by
          simpa using hb
        rw [hb'] at hv
        simp only [Bool.not_false, Bool.true_and, ite_true] at hv
        rw [List.any_eq_false] at hb'
        have hvmem : v ∈ poly.vertices := by
          by_cases hdir : 0 < poly.plane.normal.dot P.normal
          · rw [if_pos hdir] at hv
            simpa [resultFrontVerts] using hv
          · rw [if_neg hdir] at hv
            simp [resultFrontVerts] at hv
        refine classify_not_back_sd fun hc => ?_
        exact absurd (by simpa using hc) (by
          simpa using hb' (P.classifyPoint v) (List.mem_map_of_mem P.classifyPoint hvmem))
  · -- (2) Back fragment distance bound
    intro v hv
    simp only [Polygon.splitByPlane] at hv
    by_cases hf : (List.map P.classifyPoint poly.vertices).any
        (fun c => decide (c = PointClass.Front)) = true
    · by_cases hb : (List.map P.classifyPoint poly.vertices).any
          (fun c => decide (c = PointClass.Back)) = true
      · rw [hf, hb] at hv
        simp only [Bool.not_true, Bool.false_and, Bool.false_eq_true, if_false,
          ite_false] at hv
        cases hopt : Polygon.new (backRim poly P) with
        | none =>
          rw [hopt] at hv
          simp [resultBackVerts] at hv
        | some q =>
          rw [hopt] at hv
          by_cases hlen : 3 ≤ (backRim poly P).length
          · rw [if_pos hlen] at hv
            simp only [resultBackVerts] at hv
            rw [Polygon.new_vertices hopt] at hv
            exact backRim_sd_le poly P v hv
          · rw [if_neg hlen] at hv
            simp [resultBackVerts] at hv
      · have hb' : (List.map P.classifyPoint poly.vertices).any
            (fun c => decide (c = PointClass.Back)) = false := by
          simpa using hb
        rw [hf, hb'] at hv
        simp only [Bool.not_true, Bool.not_false, Bool.false_and, Bool.false_eq_true,
          if_false, ite_false, ite_true, Bool.true_eq_false] at hv
        simp [resultBackVerts] at hv
    · have hf' : (List.map P.classifyPoint poly.vertices).any
          (fun c => decide (c = PointClass.Front)) = false := by
        simpa using hf
      rw [hf'] at hv
      rw [List.any_eq_false] at hf'
      by_cases hb : (List.map P.classifyPoint poly.vertices).any
          (fun c => decide (c = PointClass.Back)) = true
      · rw [hb] at hv
        simp only [Bool.not_false, Bool.not_true, Bool.true_and, Bool.false_eq_true,
          Bool.true_eq_false, if_false, ite_false, ite_true] at hv
        simp only [resultBackVerts] at hv
        refine classify_not_front_sd fun hc => ?_
        exact absurd (by simpa using hc) (by
          simpa using hf' (P.classifyPoint v) (List.mem_map_of_mem P.classifyPoint hv))
      · have hb' : (List.map P.classifyPoint poly.vertices).any
            (fun c => decide (c = PointClass.Back)) = false := by
          simpa using hb
        rw [hb'] at hv
        simp only [Bool.not_false, Bool.true_and, ite_true] at hv
        have hvmem : v ∈ poly.vertices := by
          by_cases hdir : 0 < poly.plane.normal.dot P.normal
          · rw [if_pos hdir] at hv
            simp [resultBackVerts] at hv
          · rw [if_neg hdir] at hv
            simpa [resultBackVerts] using hv
        refine classify_not_front_sd fun hc => ?_
        exact absurd (by simpa using hc) (by
          simpa using hf' (P.classifyPoint v) (List.mem_map_of_mem P.classifyPoint hvmem))
  · -- (3) Coplanar vertices are pushed into both rims
    intro v hv hc
    obtain ⟨b, hpair⟩ := exists_cyc_pair hv
    constructor
    · rw [frontRim_eq]
      refine List.mem_flatMap.mpr ⟨(v, b), hpair, ?_⟩
      simp [stepFront, hc]
    · rw [backRim_eq]
      refine List.mem_flatMap.mpr ⟨(v, b), hpair, ?_⟩
      simp [stepBack, hc]
  · -- (4) every input vertex reaches a rim
    intro v hv
    obtain ⟨b, hpair⟩ := exists_cyc_pair hv
    cases hc : P.classifyPoint v with
    | Coplanar =>
      refine Or.inl ?_
      rw [frontRim_eq]
      exact List.mem_flatMap.mpr ⟨(v, b), hpair, by simp [stepFront, hc]⟩
    | Front =>
      refine Or.inl ?_
      rw [frontRim_eq]
      exact List.mem_flatMap.mpr ⟨(v, b), hpair, by simp [stepFront, hc]⟩
    | Back =>
      refine Or.inr ?_
      rw [backRim_eq]
      exact List.mem_flatMap.mpr ⟨(v, b), hpair, by simp [stepBack, hc]⟩
  · -- (7) interpolated points come from strictly spanning edges
    intro v hv
    rw [newPoints_eq] at hv
    obtain ⟨ab, hab, hstep⟩ := List.mem_flatMap.mp hv
    by_cases hs : isSpanEdge (P.classifyPoint ab.1) (P.classifyPoint ab.2) = true
    · rw [if_pos hs] at hstep
      simp only [List.mem_cons, List.not_mem_nil, or_false] at hstep
      exact ⟨ab.1, ab.2, (List.of_mem_zip hab).1,
        (List.mem_rotate).mp (List.of_mem_zip hab).2, hs, hstep⟩
    · rw [if_neg hs] at hstep
      simp at hstep
  · -- (8) a triangle generates at most two interpolated points
    intro hlen
    obtain ⟨a, b, c, hl⟩ := List.length_eq_three.mp hlen
    rw [newPoints_eq, hl]
    have hrot : ([a, b, c].rotate 1) = [b, c, a] := rfl
    rw [hrot]
    simp only [List.zip_cons_cons, List.zip_nil_right, List.flatMap_cons, List.flatMap_nil,
      List.append_nil, List.length_append]
    cases P.classifyPoint a <;> cases P.classifyPoint b <;> cases P.classifyPoint c <;>
      simp [isSpanEdge]

/-- The splitting plane `z = 0` used by the C5/C10 concrete instances. -/
def cexPlane : Plane := { normal := Vec3.new 0 0 1, w := 0 }

/-- A planar, non-convex quadrilateral (in the plane `y = 0`) whose vertices
alternate strictly Front / strictly Back of `cexPlane`. -/
def cexQuad : Polygon :=
  { vertices := [Vec3.new 0 0 1, Vec3.new 1 0 (-1), Vec3.new 2 0 1, Vec3.new 4 0 (-1)]
    plane := { normal := Vec3.new 0 (-4) 0, w := 0 } }

/-- **C5, counterexample.** The quadrilateral `cexQuad` (constructible by
`Polygon::new`) generates *four* distinct interpolated intersection points
when split by `cexPlane`, all of them in the Front rim and none of them input
vertices — the split outputs are not the input's vertices plus at most two
interpolated points. -/
theorem C5_counterexample :
    Polygon.new [Vec3.new 0 0 1, Vec3.new 1 0 (-1), Vec3.new 2 0 1, Vec3.new 4 0 (-1)] =
      some cexQuad ∧
    (newPoints cexQuad cexPlane).length = 4 ∧
    ¬ ((newPoints cexQuad cexPlane).length ≤ 2) ∧
    (∀ v ∈ newPoints cexQuad cexPlane, v ∈ frontRim cexQuad cexPlane ∧
      v ∉ cexQuad.vertices) := by
  refine ⟨by decide, by decide, by decide, by decide⟩

/-- The triangle used by the C5 witness: one vertex strictly Front, one
Coplanar, one strictly Back of `cexPlane`. -/
def witTri : Polygon :=
  { vertices := [Vec3.new 0 0 1, Vec3.new 1 0 0, Vec3.new 0 0 (-1)]
    plane := { normal := Vec3.new 0 2 0, w := 0 } }

/-- **C5, witness.** The theorem applied at the concrete triangle `witTri`
and plane `cexPlane`: its Coplanar vertex lands in both rims, and the
triangle produces at most two interpolated points. -/
theorem C5_witness :
    (Vec3.new 1 0 0 ∈ frontRim witTri cexPlane ∧ Vec3.new 1 0 0 ∈ backRim witTri cexPlane) ∧
    (newPoints witTri cexPlane).length ≤ 2 :=
  ⟨(C5_split_by_plane witTri cexPlane).2.2.1 (Vec3.new 1 0 0) (by decide) (by decide),
   (C5_split_by_plane witTri cexPlane).2.2.2.2.2.2.2 (by decide)⟩

lemma takeValid_of_invalid {o : Option Mesh} {fb : Mesh}
    (h : hull.hullValid o = false) : hull.takeValid o fb = fb := by
  cases o with
  | none => rfl
  | some hm =>
    have h' : (decide (4 ≤ hm.vertices.length) && decide (4 ≤ hm.indices.length)) = false := h
    show (if 4 ≤ hm.vertices.length ∧ 4 ≤ hm.indices.length then hm else fb) = fb
    rw [if_neg]
    intro hc
    rw [Bool.and_eq_false_iff] at h'
    rcases h' with h' | h' <;> simp [hc.1, hc.2] at h'

/-- **C6 (amended).** `compute_hull` fails soft on the incremental path: for
every input mesh that reaches the incremental-hull stage (at least 4
vertices, at least 4 deduplicated points, not detected coplanar), if the
incremental hull and its single re-run on the deterministically perturbed
points (LCG seed fixed at 12345) both fail to produce a mesh with at least 4
vertices and at least 4 indices, `compute_hull` returns the input mesh
unchanged.  (The totality of the embedded function is the no-panic part; on
the *coplanar* path the function returns a rebuilt 2D hull instead of the
input even when both incremental runs would fail — see the counterexample.) -/
theorem C6_hull_fails_soft (m : Mesh)
    (h4 : 4 ≤ m.vertices.length)
    (hd4 : 4 ≤ (hull.dedupPoints m.vertices).length)
    (hcop : hull.detectCoplanarSet (hull.dedupPoints m.vertices)
      (hull.adaptiveEpsilon (hull.dedupPoints m.vertices)) = none)
    (hfail1 : hull.hullValid (hull.incrementalHull (hull.dedupPoints m.vertices)) = false)
    (hfail2 : hull.hullValid (hull.incrementalHull
      (hull.perturbPoints (hull.dedupPoints m.vertices))) = false) :
    hull.computeHull m = m := by
  unfold hull.computeHull
  rw [if_neg (by omega), if_neg (by omega)]
  simp only [hcop]
  rw [takeValid_of_invalid hfail1, takeValid_of_invalid hfail2]

/-- Six points that defeat coplanarity detection (whose first-found candidate
plane is tilted by the three nearly-coincident leading points) while the
initial-tetrahedron search fails (every point lies within the adaptive
epsilon of the plane through the x-extremes and the farthest-from-line
point), on the original and on the perturbed points alike. -/
def hullWitMesh : Mesh :=
  Mesh.new [Vec3.new 100 0 0, Vec3.new (201 / 2) (1 / 2) (1 / 50),
    Vec3.new 101 0 (1 / 40), Vec3.new 0 0 0, Vec3.new 300 0 0,
    Vec3.new 150 200 0] []

set_option maxRecDepth 100000 in
/-- **C6, witness.** The theorem applied at `hullWitMesh`: both incremental
runs fail and `compute_hull` returns the input unchanged. -/
theorem C6_witness : hull.computeHull hullWitMesh = hullWitMesh :=
  C6_hull_fails_soft hullWitMesh (by decide) (by decide) (by decide) (by decide)
    (by decide)

/-- An exactly planar square mesh (two triangles). -/
def sqMesh : Mesh :=
  Mesh.new [Vec3.new 0 0 0, Vec3.new 1 0 0, Vec3.new 1 1 0, Vec3.new 0 1 0]
    [0, 1, 2, 0, 2, 3]

set_option maxRecDepth 100000 in
/-- **C6, counterexample.** On the planar square, the incremental hull and
its perturbed re-run both fail to produce ≥4 vertices and ≥4 indices, yet
`compute_hull` does *not* return the input mesh: the coplanar path returns a
rebuilt thin 2D hull (six duplicated vertices) instead. -/
theorem C6_counterexample :
    hull.hullValid (hull.incrementalHull (hull.dedupPoints sqMesh.vertices)) = false ∧
    hull.hullValid (hull.incrementalHull
      (hull.perturbPoints (hull.dedupPoints sqMesh.vertices))) = false ∧
    hull.computeHull sqMesh ≠ sqMesh := by
  refine ⟨by decide, by decide, by decide⟩

/-- A mesh with one vertex and no triangles. -/
def cexVertOnly : Mesh := Mesh.new [Vec3.new 0 0 0] []

/-- **C7, counterexample.** When `A` contributes no polygons, `a_clip` is
(vacuously) empty, yet `difference(A, B)` returns the *empty* mesh
`Mesh::new([], [])` — not mesh `A` unchanged: `A` still holds its vertex. -/
theorem C7_counterexample :
    operations.aClipOf cexVertOnly cexMeshB = [] ∧
    operations.difference cexVertOnly cexMeshB ≠ cexVertOnly := by
  refine ⟨by decide, by decide⟩
